import Mathlib

/-!
Shallow embedding of `src/jsonl_viewer/cli.py` (JSONL viewer CLI).

JSON values decoded by Python's `json` module are modelled by the
inductive `Json`; JSON numbers are idealised as exact rationals.
Python `None` and JSON `null` are the same object, modelled by
`Json.null`.  Dynamic-typing failures (`AttributeError`, `TypeError`)
are modelled by `Except PyErr`.
-/

/-- A decoded JSON value as produced by Python's `json.loads`.
Objects are ordered association lists (Python dicts preserve
insertion order); numbers are idealised as exact rationals. -/
inductive Json where
  | null : Json
  | bool (b : Bool) : Json
  | num (q : ℚ) : Json
  | str (s : String) : Json
  | arr (xs : List Json) : Json
  | obj (kvs : List (String × Json)) : Json

/-- A Python runtime error (AttributeError, TypeError, ...). -/
abbrev PyErr := String

mutual

/-- Structural equality of JSON values (Python `==` on decoded values). -/
def beqJ : Json → Json → Bool
  | .null, .null => true
  | .bool a, .bool b => a == b
  | .num a, .num b => a == b
  | .str a, .str b => a == b
  | .arr xs, .arr ys => beqJL xs ys
  | .obj xs, .obj ys => beqJO xs ys
  | _, _ => false

/-- Equality of JSON arrays, elementwise. -/
def beqJL : List Json → List Json → Bool
  | [], [] => true
  | x :: xs, y :: ys => beqJ x y && beqJL xs ys
  | _, _ => false

/-- Equality of JSON objects, as ordered key/value lists. -/
def beqJO : List (String × Json) → List (String × Json) → Bool
  | [], [] => true
  | (k1, v1) :: xs, (k2, v2) :: ys => k1 == k2 && beqJ v1 v2 && beqJO xs ys
  | _, _ => false

end

mutual

theorem beqJ_iff : ∀ a b : Json, beqJ a b = true ↔ a = b
  | .null, .null => by simp [beqJ]
  | .bool a, .bool b => by simp [beqJ]
  | .num a, .num b => by simp [beqJ]
  | .str a, .str b => by simp [beqJ]
  | .arr xs, .arr ys => by
      simpa [beqJ] using beqJL_iff xs ys
  | .obj xs, .obj ys => by
      simpa [beqJ] using beqJO_iff xs ys
  | .null, .bool _ | .null, .num _ | .null, .str _ | .null, .arr _ | .null, .obj _
  | .bool _, .null | .bool _, .num _ | .bool _, .str _ | .bool _, .arr _ | .bool _, .obj _
  | .num _, .null | .num _, .bool _ | .num _, .str _ | .num _, .arr _ | .num _, .obj _
  | .str _, .null | .str _, .bool _ | .str _, .num _ | .str _, .arr _ | .str _, .obj _
  | .arr _, .null | .arr _, .bool _ | .arr _, .num _ | .arr _, .str _ | .arr _, .obj _
  | .obj _, .null | .obj _, .bool _ | .obj _, .num _ | .obj _, .str _ | .obj _, .arr _ => by
      simp [beqJ]

theorem beqJL_iff : ∀ xs ys : List Json, beqJL xs ys = true ↔ xs = ys
  | [], [] => by simp [beqJL]
  | x :: xs, y :: ys => by
      simp [beqJL, Bool.and_eq_true, beqJ_iff x y, beqJL_iff xs ys]
  | [], _ :: _ => by simp [beqJL]
  | _ :: _, [] => by simp [beqJL]

theorem beqJO_iff : ∀ xs ys : List (String × Json), beqJO xs ys = true ↔ xs = ys
  | [], [] => by simp [beqJO]
  | (k1, v1) :: xs, (k2, v2) :: ys => by
      simp [beqJO, Bool.and_eq_true, beqJ_iff v1 v2, beqJO_iff xs ys, and_assoc]
  | [], _ :: _ => by simp [beqJO]
  | _ :: _, [] => by simp [beqJO]

end

instance : DecidableEq Json := fun a b => decidable_of_iff (beqJ a b = true) (beqJ_iff a b)

instance {e a : Type} [DecidableEq e] [DecidableEq a] : DecidableEq (Except e a) :=
  fun x y =>
    match x, y with
    | .ok u, .ok v =>
        if h : u = v then isTrue (by rw [h]) else isFalse (by simp [h])
    | .error u, .error v =>
        if h : u = v then isTrue (by rw [h]) else isFalse (by simp [h])
    | .ok _, .error _ => isFalse (by simp)
    | .error _, .ok _ => isFalse (by simp)

/-- Lookup in a JSON object viewed as an ordered key/value list
(`k in d` / `d[k]` on a Python dict). -/
def jlookup (kvs : List (String × Json)) (k : String) : Option Json :=
  (kvs.find? (fun p => p.1 == k)).map (fun p => p.2)

/-- `d.get(k)` on a Python dict: `None` when the key is absent. -/
def dictGet (kvs : List (String × Json)) (k : String) : Json :=
  (jlookup kvs k).getD Json.null

/-- `d.get(k, default)` on a Python dict. -/
def dictGetD (kvs : List (String × Json)) (k : String) (d : Json) : Json :=
  (jlookup kvs k).getD d

/-- `v.get(k)` on an arbitrary decoded value: AttributeError when the
value is not a dict. -/
def pyGet : Json → String → Except PyErr Json
  | .obj kvs, k => .ok (dictGet kvs k)
  | _, _ => .error "AttributeError: .get on non-dict"

/-- `v.get(k, default)` on an arbitrary decoded value. -/
def pyGetD : Json → String → Json → Except PyErr Json
  | .obj kvs, k, d => .ok (dictGetD kvs k d)
  | _, _, _ => .error "AttributeError: .get on non-dict"

/-- Python truthiness of a decoded JSON value. -/
def truthy : Json → Bool
  | .null => false
  | .bool b => b
  | .num q => q != 0
  | .str s => s != ""
  | .arr xs => !xs.isEmpty
  | .obj kvs => !kvs.isEmpty

/-- Whether a value may be used as a Python dict key (lists and dicts
are unhashable). -/
def hashable : Json → Bool
  | .arr _ => false
  | .obj _ => false
  | _ => true

/-- `len(v)`: defined for str, list and dict; TypeError otherwise. -/
def pyLenJ : Json → Except PyErr Nat
  | .str s => .ok s.length
  | .arr xs => .ok xs.length
  | .obj kvs => .ok kvs.length
  | _ => .error "TypeError: object has no len"

/-- `for x in v`: the sequence of iterated values; TypeError when the
value is not iterable.  Iterating a string yields its one-character
strings, a dict its keys. -/
def pyIter : Json → Except PyErr (List Json)
  | .arr xs => .ok xs
  | .str s => .ok (s.data.map fun c => Json.str (String.mk [c]))
  | .obj kvs => .ok (kvs.map fun p => Json.str p.1)
  | _ => .error "TypeError: not iterable"

/-- `v[:n]`: prefix slicing, defined for str and list. -/
def pySlice : Json → Nat → Except PyErr Json
  | .str s, n => .ok (.str (s.take n))
  | .arr xs, n => .ok (.arr (xs.take n))
  | _, _ => .error "TypeError: unsliceable"

/-- A value used as a Python number (int, float or bool) in arithmetic
or numeric formatting; TypeError otherwise. -/
def pyNum : Json → Except PyErr ℚ
  | .num q => .ok q
  | .bool b => .ok (if b then 1 else 0)
  | _ => .error "TypeError: not a number"

mutual

/-- `str(v)` / f-string conversion of a decoded value.  The exact
textual form of nested containers and numbers is idealised (the claims
never depend on it); what matters is that the conversion is total. -/
def pyStr : Json → String
  | .null => "None"
  | .bool true => "True"
  | .bool false => "False"
  | .num q => toString q.num ++ (if q.den = 1 then "" else "/" ++ toString q.den)
  | .str s => s
  | .arr xs => "[" ++ pyStrL xs ++ "]"
  | .obj kvs => "\x7b" ++ pyStrO kvs ++ "\x7d"

/-- Rendering of array elements, comma-separated. -/
def pyStrL : List Json → String
  | [] => ""
  | [x] => pyStr x
  | x :: y :: xs => pyStr x ++ ", " ++ pyStrL (y :: xs)

/-- Rendering of object entries, comma-separated. -/
def pyStrO : List (String × Json) → String
  | [] => ""
  | [(k, v)] => k ++ ": " ++ pyStr v
  | (k, v) :: p :: xs => k ++ ": " ++ pyStr v ++ ", " ++ pyStrO (p :: xs)

end

/-- The decode outcome of one physical line of the input file.  The
Python `json` module is external to this repository, so a line is
modelled by what `json.loads` does on it: `blank` strips to the empty
string, `bad` raises `JSONDecodeError`, `ok j` decodes to `j`. -/
inductive LineP where
  | blank : LineP
  | bad : LineP
  | ok (j : Json) : LineP
deriving DecidableEq

/-- The loop body of `load_jsonl`: 1-based line numbering, blank lines
skipped silently, bad lines emit one line-numbered diagnostic and are
skipped, good lines append their record.  Returns the records and the
line numbers of the diagnostics. -/
def load_jsonl_go (i : Nat) (recs : List Json) (diags : List Nat) :
    List LineP → List Json × List Nat
  | [] => (recs, diags)
  | .blank :: rest => load_jsonl_go (i + 1) recs diags rest
  | .bad :: rest => load_jsonl_go (i + 1) recs (diags ++ [i]) rest
  | .ok j :: rest => load_jsonl_go (i + 1) (recs ++ [j]) diags rest

/-- `load_jsonl`: tolerant line-delimited loading. -/
def load_jsonl (lines : List LineP) : List Json × List Nat :=
  load_jsonl_go 1 [] [] lines

/-- An input file, modelled by the decode outcomes the Python `json`
module produces on it: the whole-document parse of the stripped
content (`none` when `json.loads` raises), whether the stripped
content starts with a brace, and the per-line decode outcomes. -/
structure FileModel where
  whole : Option Json
  startsBrace : Bool
  lines : List LineP

/-- `load_trajectory_json`: whole-document load with no exception
handler; a dict with a `steps` key yields that value, a bare list
yields itself, anything else is wrapped in a singleton list. -/
def load_trajectory_json (f : FileModel) : Except PyErr Json :=
  match f.whole with
  | none => .error "json.JSONDecodeError"
  | some (.obj kvs) =>
      if (jlookup kvs "steps").isSome then .ok (dictGetD kvs "steps" (.arr []))
      else .ok (.arr [.obj kvs])
  | some (.arr xs) => .ok (.arr xs)
  | some d => .ok (.arr [d])

/-- `smart_load`: attempt the whole-document parse only when the
stripped content starts with a brace; a parse failure there is
silently swallowed (bare `except: pass`), and any case that does not
return a `steps` value falls back to the line-delimited loader tagged
"jsonl".  Returns the records value, the format tag, and the line
numbers of the per-line decode diagnostics emitted during loading. -/
def smart_load (f : FileModel) : Json × String × List Nat :=
  match
    (if f.startsBrace then
      match f.whole with
      | some (.obj kvs) =>
          if (jlookup kvs "steps").isSome then some (dictGetD kvs "steps" (.arr []))
          else none
      | _ => none
    else none) with
  | some steps => (steps, "trajectory", [])
  | none =>
      let r := load_jsonl f.lines
      (Json.arr r.1, "jsonl", r.2)

/-- The outcome of `show_line`: either the record at the requested
1-based position is pretty-printed (and the process later exits 0), or
a stderr diagnostic naming the valid range is printed and the process
exits 1 via `sys.exit(1)`. -/
inductive LineOutcome where
  | printed (j : Json) : LineOutcome
  | outOfRange (count : Nat) : LineOutcome
deriving DecidableEq

/-- `show_line`: 0-based index `line_num - 1`, bounds-checked. -/
def show_line (records : List Json) (line_num : Int) : LineOutcome :=
  let idx := line_num - 1
  if 0 ≤ idx ∧ idx < (records.length : Int) then
    .printed (records.getD idx.toNat Json.null)
  else .outOfRange records.length

/-- The parsed CLI arguments that drive the dispatch in `main`. -/
structure Args where
  line : Option Int := none
  type_filter : Option String := none
  keys : Option String := none
  analyzeFlag : Bool := false
  codeFlag : Bool := false
  output : Option String := none
  truncate : Option Nat := none

/-- Python truthiness of `args.line` (None and 0 are both falsy). -/
def optIntTruthy : Option Int → Bool
  | none => false
  | some n => n != 0

/-- Python truthiness of an optional string (None and "" are falsy). -/
def optStrTruthy : Option String → Bool
  | none => false
  | some s => s != ""

/-- The handler `main` selects. -/
inductive CliAction where
  | actLine (n : Int) : CliAction
  | actFilter (t : String) : CliAction
  | actKeys (ks : String) : CliAction
  | actAnalyze : CliAction
  | actCode : CliAction
  | actSummary : CliAction
deriving DecidableEq

/-- The `if args.line: ... elif ... else` dispatch chain at the end of
`main` (after the file-exists and non-empty-records checks), with
Python truthiness on each tested option. -/
def dispatch (a : Args) : CliAction :=
  if optIntTruthy a.line then .actLine (a.line.getD 0)
  else if optStrTruthy a.type_filter then .actFilter (a.type_filter.getD "")
  else if optStrTruthy a.keys then .actKeys (a.keys.getD "")
  else if a.analyzeFlag then .actAnalyze
  else if a.codeFlag then .actCode
  else .actSummary

/-- The fate of an invocation that passed `-l N`: either the line
handler ran (with its outcome), or `main` dispatched to some other
handler and the line request was never acted on. -/
inductive LineRequest where
  | handled (o : LineOutcome) : LineRequest
  | notInvoked (other : CliAction) : LineRequest
deriving DecidableEq

/-- What happens to the `-l` option of an invocation: `main` runs
`show_line` only when `dispatch` selects the line action. -/
def lineRequest (records : List Json) (a : Args) : LineRequest :=
  match dispatch a with
  | .actLine n => .handled (show_line records n)
  | other => .notInvoked other

/-- `show_by_type`: ordered rows (1-based index, record) whose `type`
field equals the filter; when the result is empty a stderr notice is
printed but the exit is still successful. -/
def show_by_type (records : List Json) (tf : String) :
    Except PyErr (List (Nat × Json)) :=
  (records.enumFrom 1).foldlM (fun acc p => do
    let t ← pyGet p.2 "type"
    pure (if t = Json.str tf then acc ++ [p] else acc)) []

/-- The dotted-path walk of `show_keys`: at each component, `val.get(p)`
when the current value is a dict, else None (the Python loop sets
`val = None` and breaks; once None, every later step also yields
None, so the recursion below is equivalent). -/
def walk_path : Json → List String → Json
  | v, [] => v
  | .obj kvs, p :: rest => walk_path (dictGet kvs p) rest
  | _, _ :: _ => Json.null

/-- Splitting a character list on a separator, Python `str.split`
semantics with a one-character separator: `"".split(sep)` is `[""]`,
adjacent separators yield empty fields. -/
def splitOnChar (sep : Char) : List Char → List (List Char)
  | [] => [[]]
  | c :: rest =>
      let r := splitOnChar sep rest
      if c = sep then [] :: r
      else
        match r with
        | [] => [[c]]
        | h :: t => (c :: h) :: t

/-- `s.split(sep)` for a one-character separator. -/
def pySplit (sep : Char) (s : String) : List String :=
  (splitOnChar sep s.data).map String.mk

/-- The comma-splitting of the `-k` argument done in `main`
(`[k.strip() for k in args.keys.split(",")]`). -/
def parse_keys (s : String) : List String :=
  (pySplit ',' s).map (fun k => k.trim)

/-- The per-record projection of `show_keys`: resolved key/value pairs
in the order the keys were given; a key whose walk yields None is
omitted. -/
def extract_keys (r : Json) (keys : List String) : List (String × Json) :=
  keys.foldl (fun acc k =>
    let v := walk_path r (pySplit '.' k)
    if v ≠ Json.null then acc ++ [(k, v)] else acc) []

/-- `show_keys`: one output row per record whose projection is
non-empty, in record order, with 1-based indices. -/
def show_keys (records : List Json) (keys : List String) :
    List (Nat × List (String × Json)) :=
  (records.enumFrom 1).foldl (fun acc p =>
    let ex := extract_keys p.2 keys
    if !ex.isEmpty then acc ++ [(p.1, ex)] else acc) []

/-- Histogram bump on a Python dict in insertion order
(`d[t] = d.get(t, 0) + 1`). -/
def bump (types : List (Json × Nat)) (t : Json) : List (Json × Nat) :=
  if (types.find? (fun p => p.1 == t)).isSome then
    types.map (fun p => if p.1 == t then (p.1, p.2 + 1) else p)
  else types ++ [(t, 1)]

/-- One record of the `type` histogram loop of `show_summary`; the
fetched type value becomes a dict key, so it must be hashable. -/
def summary_step (types : List (Json × Nat)) (r : Json) :
    Except PyErr (List (Json × Nat)) := do
  let t ← pyGetD r "type" (Json.str "unknown")
  if hashable t then pure (bump types t)
  else .error "TypeError: unhashable type"

/-- One record of the Claude-Code probe in `show_summary`
(`any(r.get("type") == "system" and r.get("subtype") == "init" ...)`),
with Python short-circuiting: once satisfied, later records are not
examined; the `subtype` fetch happens only when the type matched. -/
def claude_probe_step (found : Bool) (r : Json) : Except PyErr Bool := do
  if found then pure true
  else
    let t ← pyGet r "type"
    if t = Json.str "system" then
      let s ← pyGet r "subtype"
      pure (s = Json.str "init")
    else pure false

/-- What `show_summary` reports: the record count, the `type`
histogram in insertion order (the printed rendering sorts it by
descending count, which cannot fail), and whether the deep-analysis
hint was printed. -/
structure SummaryReport where
  total : Nat
  types : List (Json × Nat)
  claudeHint : Bool
deriving DecidableEq

/-- `show_summary`. -/
def show_summary (records : List Json) : Except PyErr SummaryReport := do
  let types ← records.foldlM summary_step []
  let hint ← records.foldlM claude_probe_step false
  pure ⟨records.length, types, hint⟩

/-- The session block of `analyze_claude_code`: fields of the first
`type=system, subtype=init` record (missing fields print as None). -/
structure SessionInfo where
  model : Json
  version : Json
  cwd : Json
  toolCount : Nat
deriving DecidableEq

/-- One record of the session loop; the loop breaks at the first
match, so an already-found state passes through untouched. -/
def session_step (st : Option SessionInfo) (r : Json) :
    Except PyErr (Option SessionInfo) := do
  match st with
  | some info => pure (some info)
  | none =>
    let t ← pyGet r "type"
    if t = Json.str "system" then
      let s ← pyGet r "subtype"
      if s = Json.str "init" then
        let m ← pyGet r "model"
        let v ← pyGet r "claude_code_version"
        let c ← pyGet r "cwd"
        let tools ← pyGetD r "tools" (Json.arr [])
        let n ← pyLenJ tools
        pure (some ⟨m, v, c, n⟩)
      else pure none
    else pure none

/-- The result block of `analyze_claude_code`, from the first
`type=result` record: `duration_ms` and `total_cost_usd` default to 0
and are used numerically (division by 1000, `.4f` formatting);
`num_turns` is fetched with NO default and printed as is; the four
token counters default to 0 inside `usage` (itself defaulting to an
empty dict) and are printed as is. -/
structure ResultReport where
  success : Bool
  durationSec : ℚ
  numTurns : Json
  cost : ℚ
  inputTokens : Json
  outputTokens : Json
  cacheRead : Json
  cacheCreation : Json
deriving DecidableEq

/-- One record of the result loop (breaks at the first match). -/
def result_step (st : Option ResultReport) (r : Json) :
    Except PyErr (Option ResultReport) := do
  match st with
  | some rep => pure (some rep)
  | none =>
    let t ← pyGet r "type"
    if t = Json.str "result" then
      let s ← pyGet r "subtype"
      let d ← pyGetD r "duration_ms" (Json.num 0)
      let dq ← pyNum d
      let nt ← pyGet r "num_turns"
      let c ← pyGetD r "total_cost_usd" (Json.num 0)
      let cq ← pyNum c
      let usage ← pyGetD r "usage" (Json.obj [])
      let it ← pyGetD usage "input_tokens" (Json.num 0)
      let ot ← pyGetD usage "output_tokens" (Json.num 0)
      let cr ← pyGetD usage "cache_read_input_tokens" (Json.num 0)
      let cc ← pyGetD usage "cache_creation_input_tokens" (Json.num 0)
      pure (some ⟨s = Json.str "success", dq / 1000, nt, cq, it, ot, cr, cc⟩)
    else pure none

/-- One record of the combined tool-usage / error loop of
`analyze_claude_code` (1-based position paired in).  Assistant records
feed the tool-name histogram (the name becomes a dict key); user
records with error-flagged content entries append
`(position, content[:80])`. -/
def tool_err_step (st : List (Json × Nat) × List (Nat × Json)) (p : Nat × Json) :
    Except PyErr (List (Json × Nat) × List (Nat × Json)) := do
  let r := p.2
  let t ← pyGet r "type"
  let tools2 ←
    if t = Json.str "assistant" then do
      let msg ← pyGetD r "message" (Json.obj [])
      let content ← pyGetD msg "content" (Json.arr [])
      let items ← pyIter content
      items.foldlM (fun acc c => do
        let ct ← pyGet c "type"
        if ct = Json.str "tool_use" then
          let name ← pyGet c "name"
          if hashable name then pure (bump acc name)
          else Except.error "TypeError: unhashable type"
        else pure acc) st.1
    else pure st.1
  let errs2 ←
    if t = Json.str "user" then do
      let msg ← pyGetD r "message" (Json.obj [])
      let content ← pyGetD msg "content" (Json.arr [])
      let items ← pyIter content
      items.foldlM (fun acc c => do
        let e ← pyGet c "is_error"
        if truthy e then do
          let txt ← pyGetD c "content" (Json.str "")
          let sl ← pySlice txt 80
          pure (acc ++ [(p.1, sl)])
        else pure acc) st.2
    else pure st.2
  pure (tools2, errs2)

/-- One record of the thinking loop of `analyze_claude_code`: for an
assistant record, the first `type=text` content entry contributes
`(position, text[:60])` and the inner loop breaks. -/
def thinking_step (acc : List (Nat × Json)) (p : Nat × Json) :
    Except PyErr (List (Nat × Json)) := do
  let t ← pyGet p.2 "type"
  if t = Json.str "assistant" then
    let msg ← pyGetD p.2 "message" (Json.obj [])
    let content ← pyGetD msg "content" (Json.arr [])
    let items ← pyIter content
    let firstText ← items.foldlM (fun (found : Option Json) c => do
      match found with
      | some x => pure (some x)
      | none => do
        let ct ← pyGet c "type"
        if ct = Json.str "text" then do
          let txt ← pyGetD c "text" (Json.str "")
          let sl ← pySlice txt 60
          pure (some sl)
        else pure none) none
    match firstText with
    | some sl => pure (acc ++ [(p.1, sl)])
    | none => pure acc
  else pure acc

/-- Everything `analyze_claude_code` reports. -/
structure AnalyzeReport where
  session : Option SessionInfo
  result : Option ResultReport
  toolUses : List (Json × Nat)
  errors : List (Nat × Json)
  thinking : List (Nat × Json)
deriving DecidableEq

/-- `analyze_claude_code`: the four independent passes over the same
record sequence. -/
def analyze_claude_code (records : List Json) : Except PyErr AnalyzeReport := do
  let s ← records.foldlM session_step none
  let res ← records.foldlM result_step none
  let te ← (records.enumFrom 1).foldlM tool_err_step ([], [])
  let th ← (records.enumFrom 1).foldlM thinking_step []
  pure ⟨s, res, te.1, te.2, th⟩

/-- One entry of the `code_changes` list of `extract_agent_code`:
`(step position, tool name, target path, action kind, payload)`.  The
position is the 1-based record index (a number) except for rule 3,
where it is the raw `step_id` value when present; path and payload are
the raw fetched values. -/
structure CodeChange where
  pos : Json
  tool : String
  path : Json
  action : String
  content : Json
deriving DecidableEq

/-- The synthesized Edit payload
`--- OLD ---\n{old}\n\n+++ NEW +++\n{new}`. -/
def synth_edit (o n : Json) : Json :=
  Json.str ("--- OLD ---\n" ++ pyStr o ++ "\n\n+++ NEW +++\n" ++ pyStr n)

/-- Rule 1 of the extraction scan: Claude-Code schema
(`type=assistant`, entries of `message.content` with `type=tool_use`,
tools Write and Edit).  Returns the changes this record contributes
under this rule, in encounter order. -/
def rule_assistant (i : Nat) (r : Json) : Except PyErr (List CodeChange) := do
  let t ← pyGet r "type"
  if t = Json.str "assistant" then
    let msg ← pyGetD r "message" (Json.obj [])
    let content ← pyGetD msg "content" (Json.arr [])
    let items ← pyIter content
    items.foldlM (fun acc c => do
      let ct ← pyGet c "type"
      if ct = Json.str "tool_use" then
        let name ← pyGetD c "name" (Json.str "")
        let input ← pyGetD c "input" (Json.obj [])
        if name = Json.str "Write" then
          let fp ← pyGetD input "file_path" (Json.str "unknown")
          let body ← pyGetD input "content" (Json.str "")
          pure (acc ++ [⟨Json.num i, "Write", fp, "create", body⟩])
        else if name = Json.str "Edit" then
          let fp ← pyGetD input "file_path" (Json.str "unknown")
          let o ← pyGetD input "old_string" (Json.str "")
          let n ← pyGetD input "new_string" (Json.str "")
          pure (acc ++ [⟨Json.num i, "Edit", fp, "modify", synth_edit o n⟩])
        else pure acc
      else pure acc) []
  else pure []

/-- Rule 2 of the extraction scan: top-level `tool_calls`, applied to
every record regardless of type; only `Write` is handled here.  The
`function_name` and `arguments` fetches happen for every entry, before
the name test. -/
def rule_tool_calls (i : Nat) (r : Json) : Except PyErr (List CodeChange) := do
  let tcs ← pyGetD r "tool_calls" (Json.arr [])
  let items ← pyIter tcs
  items.foldlM (fun acc tc => do
    let fn ← pyGetD tc "function_name" (Json.str "")
    let args ← pyGetD tc "arguments" (Json.obj [])
    if fn = Json.str "Write" then
      let fp ← pyGetD args "file_path" (Json.str "unknown")
      let body ← pyGetD args "content" (Json.str "")
      pure (acc ++ [⟨Json.num i, "Write", fp, "create", body⟩])
    else pure acc) []

/-- Rule 3 of the extraction scan: only in trajectory format; reads
`tool_calls` a second time, records the position as the raw `step_id`
value when present (else the 1-based discovery index), and handles
both Write and Edit. -/
def rule_trajectory (fmt : String) (i : Nat) (r : Json) :
    Except PyErr (List CodeChange) := do
  if fmt = "trajectory" then
    let sid ← pyGetD r "step_id" (Json.num i)
    let tcs ← pyGetD r "tool_calls" (Json.arr [])
    let items ← pyIter tcs
    items.foldlM (fun acc tc => do
      let fn ← pyGetD tc "function_name" (Json.str "")
      let args ← pyGetD tc "arguments" (Json.obj [])
      if fn = Json.str "Write" then
        let fp ← pyGetD args "file_path" (Json.str "unknown")
        let body ← pyGetD args "content" (Json.str "")
        pure (acc ++ [⟨sid, "Write", fp, "create", body⟩])
      else if fn = Json.str "Edit" then
        let fp ← pyGetD args "file_path" (Json.str "unknown")
        let o ← pyGetD args "old_string" (Json.str "")
        let n ← pyGetD args "new_string" (Json.str "")
        pure (acc ++ [⟨sid, "Edit", fp, "modify", synth_edit o n⟩])
      else pure acc) []
  else pure []

/-- The scan loop of `extract_agent_code`: one shared `code_changes`
list, appended to in rule order 1, 2, 3 for each record in turn. -/
def extract_changes (fmt : String) (records : List Json) :
    Except PyErr (List CodeChange) :=
  (records.enumFrom 1).foldlM (fun acc p => do
    let a ← rule_assistant p.1 p.2
    let b ← rule_tool_calls p.1 p.2
    let c ← rule_trajectory fmt p.1 p.2
    pure (acc ++ a ++ b ++ c)) []

/-- The declarative per-record reading of the scan: the three rules
applied independently, their emissions concatenated in rule order. -/
def extract_record (fmt : String) (p : Nat × Json) :
    Except PyErr (List CodeChange) := do
  let a ← rule_assistant p.1 p.2
  let b ← rule_tool_calls p.1 p.2
  let c ← rule_trajectory fmt p.1 p.2
  pure (a ++ b ++ c)

/-- A rendered code-change detail: the change, the payload text as
shown (`content[:3000]` when truncated), and the truncation notice
carrying the original character length when one is printed. -/
structure Detail where
  change : CodeChange
  shown : Json
  notice : Option Nat
deriving DecidableEq

/-- The per-change rendering of the detail section:
`if len(content) > 3000: print(content[:3000]); print(notice)`. -/
def render_detail (c : CodeChange) : Except PyErr Detail := do
  let n ← pyLenJ c.content
  if n > 3000 then do
    let sl ← pySlice c.content 3000
    pure ⟨c, sl, some n⟩
  else
    pure ⟨c, c.content, none⟩

/-- Sequential effectful map (the shape of a Python for-loop that can
raise): stops at the first error. -/
def mapE {α β : Type} (f : α → Except PyErr β) : List α → Except PyErr (List β)
  | [] => pure []
  | x :: xs => do
      let b ← f x
      let bs ← mapE f xs
      pure (b :: bs)

/-- The detail section, in discovery order. -/
def render_details (cs : List CodeChange) : Except PyErr (List Detail) :=
  mapE render_detail cs

/-- Per-path create/modify counters
(`file_stats[fp] = {Write: w, Edit: e}`), in first-seen order. -/
def bump_stats (stats : List (Json × Nat × Nat)) (fp : Json) (tool : String) :
    List (Json × Nat × Nat) :=
  let stats1 :=
    if (stats.find? (fun p => p.1 == fp)).isSome then stats
    else stats ++ [(fp, 0, 0)]
  stats1.map (fun p =>
    if p.1 == fp then
      (p.1, if tool = "Write" then (p.2.1 + 1, p.2.2) else (p.2.1, p.2.2 + 1))
    else p)

/-- The grouping pass over the discovered changes; the target path
becomes a dict key, so it must be hashable. -/
def file_stats (cs : List CodeChange) :
    Except PyErr (List (Json × Nat × Nat)) :=
  cs.foldlM (fun st c =>
    if hashable c.path then pure (bump_stats st c.path c.tool)
    else Except.error "TypeError: unhashable type") []

/-- `file_path.replace("/", "_").replace("\\", "_").lstrip("_")`:
needs a str target path. -/
def safe_name (fp : Json) : Except PyErr String :=
  match fp with
  | .str s =>
      .ok (String.mk ((((s.data.map (fun c => if c = '/' then '_' else c)).map
        (fun c => if c = '\\' then '_' else c))).dropWhile (fun c => c = '_')))
  | _ => .error "AttributeError: .replace on non-str"

/-- Zero-padded 3-digit rendering of the 1-based discovery index
(`f"..{idx:03d}.."`). -/
def pad3 (n : Nat) : String :=
  if n < 10 then "00" ++ toString n
  else if n < 100 then "0" ++ toString n
  else toString n

/-- The destination file name of one persisted change:
`{idx:03d}_edit_{safe}.diff` for Edit, `{idx:03d}_write_{safe}`
otherwise. -/
def persist_name (idx : Nat) (c : CodeChange) : Except PyErr String := do
  let s ← safe_name c.path
  if c.tool = "Edit" then pure (pad3 idx ++ "_edit_" ++ s ++ ".diff")
  else pure (pad3 idx ++ "_write_" ++ s)

/-- One persisted file: its name and its content (two provenance
header lines, a blank line, then the payload; `f.write` needs a str
payload). -/
def persist_file (idx : Nat) (c : CodeChange) : Except PyErr (String × String) := do
  let name ← persist_name idx c
  match c.content with
  | .str body =>
      pure (name,
        "# Source: line " ++ pyStr c.pos ++ ", tool: " ++ c.tool ++ "\n" ++
        "# Target: " ++ pyStr c.path ++ "\n\n" ++ body)
  | _ => .error "TypeError: write() argument must be str"

/-- Everything `extract_agent_code` produces after the scan, in
order. -/
structure ExtractReport where
  changes : List CodeChange
  stats : List (Json × Nat × Nat)
  details : List Detail
  savedFiles : List (String × String)
deriving DecidableEq

/-- `extract_agent_code`: scan, then (when anything was found) the
grouped counts, the rendered details in discovery order, and the
persisted files when an output directory was supplied.  An empty scan
prints a soft notice and returns normally (`none` here). -/
def extract_agent_code (fmt : String) (records : List Json)
    (outputDir : Option String) : Except PyErr (Option ExtractReport) := do
  let cs ← extract_changes fmt records
  if cs.isEmpty then pure none
  else do
    let st ← file_stats cs
    let ds ← render_details cs
    let files ←
      match outputDir with
      | none => pure []
      | some _ => mapE (fun p => persist_file p.1 p.2) (cs.enumFrom 1)
    pure (some ⟨cs, st, ds, files⟩)

/-- The value is a dict. -/
def isObj : Json → Bool
  | .obj _ => true
  | _ => false

/-- The value is a str. -/
def isStr : Json → Bool
  | .str _ => true
  | _ => false

/-- The value is usable as a Python number (int/float/bool). -/
def isNumB : Json → Bool
  | .num _ => true
  | .bool _ => true
  | _ => false

/-- `len` applies (str, list or dict). -/
def lenable : Json → Bool
  | .str _ => true
  | .arr _ => true
  | .obj _ => true
  | _ => false

/-- A `tool_use` input (or `tool_calls` arguments) dict shaped as the
extractor expects: a dict whose `file_path` and `content` values (when
present) are strings. -/
def wfInput : Json → Bool
  | .obj ikvs =>
      isStr (dictGetD ikvs "file_path" (Json.str "unknown")) &&
      isStr (dictGetD ikvs "content" (Json.str ""))
  | _ => false

/-- A `message.content` entry shaped as the analyzer and extractor
expect: a dict whose `name` value is hashable, whose `text` and
`content` values (when present) are strings, and whose `input` value
(when present) is a well-shaped input dict. -/
def wfContentItem : Json → Bool
  | .obj kvs =>
      hashable (dictGet kvs "name") &&
      isStr (dictGetD kvs "text" (Json.str "")) &&
      isStr (dictGetD kvs "content" (Json.str "")) &&
      wfInput (dictGetD kvs "input" (Json.obj []))
  | _ => false

/-- A `message.content` value: a list of well-shaped entries. -/
def wfContent : Json → Bool
  | .arr items => items.all wfContentItem
  | _ => false

/-- A `message` value: a dict whose `content` (default empty list) is
a list of well-shaped entries. -/
def wfMessage : Json → Bool
  | .obj mkvs => wfContent (dictGetD mkvs "content" (Json.arr []))
  | _ => false

/-- A `tool_calls` entry: a dict whose `arguments` value (when
present) is a well-shaped input dict. -/
def wfToolCall : Json → Bool
  | .obj kvs => wfInput (dictGetD kvs "arguments" (Json.obj []))
  | _ => false

/-- A `tool_calls` value: a list of well-shaped entries. -/
def wfToolCalls : Json → Bool
  | .arr tcs => tcs.all wfToolCall
  | _ => false

/-- A record on which every operation of the tool is exception-free: a
dict whose dynamically-typed fields have the shapes the code blindly
assumes.  Genuine Claude-Code / trajectory log records satisfy this. -/
def wfRecord : Json → Bool
  | .obj kvs =>
      hashable (dictGetD kvs "type" (Json.str "unknown")) &&
      lenable (dictGetD kvs "tools" (Json.arr [])) &&
      isNumB (dictGetD kvs "duration_ms" (Json.num 0)) &&
      isNumB (dictGetD kvs "total_cost_usd" (Json.num 0)) &&
      isObj (dictGetD kvs "usage" (Json.obj [])) &&
      wfMessage (dictGetD kvs "message" (Json.obj [])) &&
      wfToolCalls (dictGetD kvs "tool_calls" (Json.arr []))
  | _ => false

/-- A discovered change whose later stages (grouping, rendering,
persisting) cannot fail: string path and string payload. -/
def goodChange (c : CodeChange) : Bool :=
  isStr c.path && isStr c.content

/-- Bind on a successful `Except` computation. -/
@[simp]
theorem exc_bind_ok {α β : Type} (a : α) (g : α → Except PyErr β) :
    (Except.ok a >>= g) = g a := rfl

/-- Bind on a failed `Except` computation. -/
@[simp]
theorem exc_bind_err {α β : Type} (e : PyErr) (g : α → Except PyErr β) :
    ((Except.error e : Except PyErr α) >>= g) = Except.error e := rfl

/-- `pure` in the `Except` monad is `ok`. -/
@[simp]
theorem exc_pure_eq_ok {α : Type} (a : α) : (pure a : Except PyErr α) = Except.ok a := rfl

/-- Generic success of an exception-modelling fold: if every step
succeeds on inputs satisfying `p` while preserving `inv`, the whole
fold succeeds. -/
theorem foldlM_ok_inv {α β : Type} (f : β → α → Except PyErr β) (p : α → Bool)
    (inv : β → Prop)
    (hf : ∀ b a, inv b → p a = true → ∃ b2, f b a = .ok b2 ∧ inv b2) :
    ∀ (l : List α) (b : β), inv b → (∀ a ∈ l, p a = true) →
      ∃ b2, l.foldlM f b = .ok b2 ∧ inv b2 := by
  intro l
  induction l with
  | nil => intro b hb _; exact ⟨b, rfl, hb⟩
  | cons x xs ih =>
      intro b hb hall
      obtain ⟨b1, hb1, hinv1⟩ := hf b x hb (hall x (by simp))
      have := ih b1 hinv1 (fun a ha => hall a (by simp [ha]))
      obtain ⟨b2, hb2, hinv2⟩ := this
      exact ⟨b2, by simp [List.foldlM, hb1, Except.bind, hb2], hinv2⟩

/-- Generic success of an exception-modelling fold, no invariant. -/
theorem foldlM_ok {α β : Type} (f : β → α → Except PyErr β) (p : α → Bool)
    (hf : ∀ b a, p a = true → ∃ b2, f b a = .ok b2) :
    ∀ (l : List α) (b : β), (∀ a ∈ l, p a = true) →
      ∃ b2, l.foldlM f b = .ok b2 := by
  intro l b hall
  obtain ⟨b2, h, -⟩ := foldlM_ok_inv f p (fun _ => True)
    (fun b a _ ha => by obtain ⟨b2, h⟩ := hf b a ha; exact ⟨b2, h, trivial⟩) l b trivial hall
  exact ⟨b2, h⟩

/-- Success of an exception-modelling sequential map. -/
theorem mapE_ok {α β : Type} (f : α → Except PyErr β) (p : α → Bool)
    (hf : ∀ a, p a = true → ∃ b, f a = .ok b) :
    ∀ l : List α, (∀ a ∈ l, p a = true) → ∃ bs, mapE f l = .ok bs := by
  intro l
  induction l with
  | nil => intro _; exact ⟨[], rfl⟩
  | cons x xs ih =>
      intro hall
      obtain ⟨b, hb⟩ := hf x (hall x (by simp))
      obtain ⟨bs, hbs⟩ := ih (fun a ha => hall a (by simp [ha]))
      refine ⟨b :: bs, ?_⟩
      simp [mapE, hb, hbs]

/-- The record a good line contributes; blank and bad lines contribute
nothing. -/
def lineGood : LineP → Option Json
  | .ok j => some j
  | _ => none

/-- Whether a line is malformed (nonblank and failing to decode). -/
def lineBad : LineP → Bool
  | .bad => true
  | _ => false

/-- The 1-based physical line numbers of the malformed lines, starting
the numbering at `i`. -/
def badIndices (i : Nat) : List LineP → List Nat
  | [] => []
  | .bad :: rest => i :: badIndices (i + 1) rest
  | .blank :: rest => badIndices (i + 1) rest
  | .ok _ :: rest => badIndices (i + 1) rest

theorem load_jsonl_go_spec :
    ∀ (lines : List LineP) (i : Nat) (recs : List Json) (diags : List Nat),
      load_jsonl_go i recs diags lines =
        (recs ++ lines.filterMap lineGood, diags ++ badIndices i lines) := by
  intro lines
  induction lines with
  | nil => intro i recs diags; simp [load_jsonl_go, badIndices]
  | cons hd tl ih =>
      intro i recs diags
      cases hd with
      | blank => simp [load_jsonl_go, badIndices, lineGood, List.filterMap_cons, ih]
      | bad => simp [load_jsonl_go, badIndices, lineGood, List.filterMap_cons, ih]
      | ok j => simp [load_jsonl_go, badIndices, lineGood, List.filterMap_cons, ih]

theorem badIndices_length :
    ∀ (lines : List LineP) (i : Nat), (badIndices i lines).length = lines.countP lineBad := by
  intro lines
  induction lines with
  | nil => intro i; simp [badIndices]
  | cons hd tl ih =>
      intro i
      cases hd <;> simp [badIndices, lineBad, List.countP_cons, ih]

theorem filterMap_length_countP {α β : Type} (f : α → Option β) :
    ∀ l : List α, (l.filterMap f).length = l.countP (fun a => (f a).isSome) := by
  intro l
  induction l with
  | nil => simp
  | cons x xs ih =>
      cases hx : f x <;> simp [List.filterMap_cons, hx, List.countP_cons, ih]

/-- C6: for every line-delimited input, `load_jsonl` returns exactly
the records of the lines that decode (in order), the loaded record
count equals the number of nonblank valid lines, blank lines are
skipped silently, and each malformed line contributes exactly one
line-numbered diagnostic (1-based physical numbering) while loading
continues — the loader itself never fails. -/
theorem C6_load_jsonl_characterisation :
    ∀ lines : List LineP,
      load_jsonl lines = (lines.filterMap lineGood, badIndices 1 lines) ∧
      (load_jsonl lines).1.length = lines.countP (fun l => (lineGood l).isSome) ∧
      (load_jsonl lines).2.length = lines.countP lineBad := by
  intro lines
  have h := load_jsonl_go_spec lines 1 [] []
  refine ⟨by simpa [load_jsonl] using h, ?_, ?_⟩
  · rw [load_jsonl, h]
    simpa using filterMap_length_countP lineGood lines
  · rw [load_jsonl, h]
    simpa using badIndices_length lines 1

theorem foldl_opt_append {a b : Type} (g : a → Option b) :
    ∀ (l : List a) (acc : List b),
      l.foldl (fun acc x => acc ++ (g x).toList) acc = acc ++ l.filterMap g := by
  intro l
  induction l with
  | nil => intro acc; simp
  | cons x xs ih =>
      intro acc
      cases hg : g x <;> simp [List.foldl_cons, List.filterMap_cons, hg, ih]

/-- The projection of one record, as a filter over the requested
keys. -/
theorem extract_keys_char (r : Json) (keys : List String) :
    extract_keys r keys = keys.filterMap (fun k =>
      let v := walk_path r (pySplit '.' k)
      if v = Json.null then none else some (k, v)) := by
  have hfun : (fun (acc : List (String × Json)) k =>
      let v := walk_path r (pySplit '.' k)
      if v ≠ Json.null then acc ++ [(k, v)] else acc)
    = (fun acc k => acc ++ ((fun k =>
        let v := walk_path r (pySplit '.' k)
        if v = Json.null then none else some (k, v)) k).toList) := by
    funext acc k
    by_cases h : walk_path r (pySplit '.' k) = Json.null <;> simp [h]
  rw [extract_keys, hfun, foldl_opt_append]
  simp

/-- `show_keys`, as a filter over the 1-based–enumerated records. -/
theorem show_keys_char (records : List Json) (keys : List String) :
    show_keys records keys = (records.enumFrom 1).filterMap (fun p =>
      let ex := extract_keys p.2 keys
      if ex.isEmpty then none else some (p.1, ex)) := by
  have hfun : (fun (acc : List (Nat × List (String × Json))) (p : Nat × Json) =>
      let ex := extract_keys p.2 keys
      if !ex.isEmpty then acc ++ [(p.1, ex)] else acc)
    = (fun acc p => acc ++ ((fun (p : Nat × Json) =>
        let ex := extract_keys p.2 keys
        if ex.isEmpty then none else some (p.1, ex)) p).toList) := by
    funext acc p
    by_cases h : (extract_keys p.2 keys).isEmpty <;> simp [h]
  rw [show_keys, hfun, foldl_opt_append]
  simp

/-- C9: field projection walks a dotted path component by component
and short-circuits to absent as soon as the current value is not a
mapping: `a.b.c` against `{"a":{"b":{"c":7}}}` yields 7, against
`{"a":{"b":5}}` yields absent; a record with no resolved value for any
requested path contributes no output row, and rows appear in record
sequence order (the filter over the enumerated records). -/
theorem C9_field_projection :
    walk_path (Json.obj [("a", Json.obj [("b", Json.obj [("c", Json.num 7)])])])
        (pySplit '.' "a.b.c") = Json.num 7 ∧
    walk_path (Json.obj [("a", Json.obj [("b", Json.num 5)])])
        (pySplit '.' "a.b.c") = Json.null ∧
    (∀ (v : Json) (parts : List String), isObj v = false → parts ≠ [] →
        walk_path v parts = Json.null) ∧
    (∀ (records : List Json) (keys : List String),
        show_keys records keys = (records.enumFrom 1).filterMap (fun p =>
          let ex := extract_keys p.2 keys
          if ex.isEmpty then none else some (p.1, ex))) := by
  refine ⟨by decide, by decide, ?_, fun records keys => show_keys_char records keys⟩
  intro v parts hv hp
  cases parts with
  | nil => exact absurd rfl hp
  | cons p rest =>
      cases v with
      | obj kvs => simp [isObj] at hv
      | null => rfl
      | bool b => rfl
      | num q => rfl
      | str s => rfl
      | arr xs => rfl

/-- Witness for C9 at a concrete non-mapping value and nonempty
path. -/
theorem C9_witness :
    isObj (Json.num 5) = false ∧ (["c"] : List String) ≠ [] ∧
    walk_path (Json.num 5) ["c"] = Json.null :=
  ⟨by decide, by decide, C9_field_projection.2.2.1 (Json.num 5) ["c"] (by decide) (by decide)⟩

/-- C10: a path that resolves to the JSON value null is
indistinguishable from an absent path: such keys are omitted from the
projected row, falsy non-null resolved values are kept, and a record
in which every requested path resolves to null produces no output row
at all. -/
theorem C10_null_like_absent :
    (∀ (r : Json) (keys : List String) (k : String),
        walk_path r (pySplit '.' k) = Json.null →
        ∀ v, (k, v) ∉ extract_keys r keys) ∧
    (∀ (r : Json) (keys : List String) (k : String), k ∈ keys →
        walk_path r (pySplit '.' k) ≠ Json.null →
        (k, walk_path r (pySplit '.' k)) ∈ extract_keys r keys) ∧
    (∀ (keys : List String) (r : Json),
        (∀ k ∈ keys, walk_path r (pySplit '.' k) = Json.null) →
        extract_keys r keys = [] ∧ show_keys [r] keys = []) := by
  refine ⟨?_, ?_, ?_⟩
  · intro r keys k hk v hmem
    rw [extract_keys_char] at hmem
    rw [List.mem_filterMap] at hmem
    obtain ⟨k2, hk2, hf⟩ := hmem
    by_cases h : walk_path r (pySplit '.' k2) = Json.null
    · simp [h] at hf
    · simp only [h, if_neg] at hf
      simp at hf
      obtain ⟨h1, -⟩ := hf
      exact h (h1 ▸ hk)
  · intro r keys k hk h
    rw [extract_keys_char, List.mem_filterMap]
    exact ⟨k, hk, by simp [h]⟩
  · intro keys r hall
    have hex : extract_keys r keys = [] := by
      rw [extract_keys_char]
      rw [List.filterMap_eq_nil_iff]
      intro k hk
      simp [hall k hk]
    refine ⟨hex, ?_⟩
    rw [show_keys_char]
    simp [List.enumFrom, List.filterMap_cons, hex]

/-- Witness for C10 at a record whose only requested path resolves to
null. -/
theorem C10_witness :
    walk_path (Json.obj [("a", Json.null)]) (pySplit '.' "a") = Json.null ∧
    (∀ v, ("a", v) ∉ extract_keys (Json.obj [("a", Json.null)]) ["a"]) ∧
    extract_keys (Json.obj [("a", Json.null)]) ["a"] = [] ∧
    show_keys [Json.obj [("a", Json.null)]] ["a"] = [] := by
  have h3 := C10_null_like_absent.2.2 ["a"] (Json.obj [("a", Json.null)])
    (by intro k hk; simp at hk; subst hk; decide)
  exact ⟨by decide, C10_null_like_absent.1 _ ["a"] _ (by decide), h3.1, h3.2⟩

/-- C8: rendering a code change whose string payload is longer than
3000 characters shows exactly the first 3000 characters
(`content[:3000]`) together with the truncation notice carrying the
original character length; a payload of at most 3000 characters is
shown in full with no notice. -/
theorem C8_payload_truncation (c : CodeChange) (s : String)
    (h : c.content = Json.str s) :
    (s.length > 3000 →
        render_detail c = .ok ⟨c, Json.str (s.take 3000), some s.length⟩) ∧
    (s.length ≤ 3000 →
        render_detail c = .ok ⟨c, Json.str s, none⟩) := by
  constructor
  · intro hl
    simp [render_detail, h, pyLenJ, pySlice, hl]
  · intro hl
    simp [render_detail, h, pyLenJ, pySlice, Nat.not_lt.mpr hl]

/-- Witness for C8 at a 3001-character payload. -/
theorem C8_witness :
    (String.mk (List.replicate 3001 'a')).length > 3000 ∧
    render_detail ⟨Json.num 1, "Write", Json.str "x", "create",
        Json.str (String.mk (List.replicate 3001 'a'))⟩
      = .ok ⟨⟨Json.num 1, "Write", Json.str "x", "create",
              Json.str (String.mk (List.replicate 3001 'a'))⟩,
             Json.str ((String.mk (List.replicate 3001 'a')).take 3000),
             some (String.mk (List.replicate 3001 'a')).length⟩ := by
  have h1 : (String.mk (List.replicate 3001 'a')).length = 3001 := by
    show (List.replicate 3001 'a').length = 3001
    exact List.length_replicate 3001 'a'
  have hl : (String.mk (List.replicate 3001 'a')).length > 3000 := by
    rw [h1]; omega
  exact ⟨hl, (C8_payload_truncation _ _ rfl).1 hl⟩

/-- C5: when the stripped content starts with a brace and the
whole-document parse yields an object carrying a `steps` key, the
smart loader returns the raw `steps` value tagged `trajectory` with no
diagnostics; when the whole-document parse fails, the failure is
silently swallowed (the bare `except: pass`) and the file is loaded
line-delimited, tagged "jsonl", with only the per-line diagnostics of
the line loader. -/
theorem C5_format_detection (f : FileModel) (kvs : List (String × Json)) (v : Json) :
    (f.startsBrace = true → f.whole = some (Json.obj kvs) →
     jlookup kvs "steps" = some v →
        smart_load f = (v, "trajectory", [])) ∧
    (f.whole = none →
        smart_load f = (Json.arr (load_jsonl f.lines).1, "jsonl",
                        (load_jsonl f.lines).2)) := by
  constructor
  · intro hb hw hs
    simp [smart_load, hb, hw, hs, dictGetD]
  · intro hw
    cases hb : f.startsBrace <;> simp [smart_load, hb, hw]

/-- Witness for C5: a steps document and a file whose whole-document
parse fails. -/
theorem C5_witness :
    smart_load ⟨some (Json.obj [("steps", Json.arr [Json.obj [("step_id", Json.num 1)]])]),
        true, [LineP.bad]⟩
      = (Json.arr [Json.obj [("step_id", Json.num 1)]], "trajectory", []) ∧
    smart_load ⟨none, true, [LineP.ok (Json.obj []), LineP.bad]⟩
      = (Json.arr [Json.obj []], "jsonl", [2]) := by
  constructor
  · exact (C5_format_detection _ _ _).1 rfl rfl rfl
  · have h := (C5_format_detection
      ⟨none, true, [LineP.ok (Json.obj []), LineP.bad]⟩ [] Json.null).2 rfl
    rw [h]
    decide

/-- C2 counterexample: for the file whose entire content is the bare
JSON array `[1, 2]` on one line (whole-document parse yields that
array; the stripped content starts with a bracket, so the brace test
fails), `smart_load` takes the line-delimited path and returns ONE
record that is the whole array — not the two elements the claim
expects. -/
theorem C2_counterexample :
    smart_load ⟨some (Json.arr [Json.num 1, Json.num 2]), false,
        [LineP.ok (Json.arr [Json.num 1, Json.num 2])]⟩
      = (Json.arr [Json.arr [Json.num 1, Json.num 2]], "jsonl", []) ∧
    Json.arr [Json.arr [Json.num 1, Json.num 2]] ≠ Json.arr [Json.num 1, Json.num 2] := by
  exact ⟨by decide, by decide⟩

/-- C2 amended: a bare-array file never reaches the whole-document
branch (its stripped content does not start with a brace), so the
smart loader falls back to line-delimited loading: the records are the
per-line parses, and a one-line bare array yields a single record
equal to the whole array.  The component that does return a bare
array unchanged, `load_trajectory_json`, is never invoked by
`smart_load`. -/
theorem C2_amended (f : FileModel) (h : f.startsBrace = false) :
    smart_load f = (Json.arr (load_jsonl f.lines).1, "jsonl",
                    (load_jsonl f.lines).2) ∧
    (∀ xs : List Json, f.whole = some (Json.arr xs) →
        load_trajectory_json f = .ok (Json.arr xs)) ∧
    (∀ elems : List Json, f.lines = [LineP.ok (Json.arr elems)] →
        smart_load f = (Json.arr [Json.arr elems], "jsonl", [])) := by
  have hmain : smart_load f = (Json.arr (load_jsonl f.lines).1, "jsonl",
      (load_jsonl f.lines).2) := by
    simp [smart_load, h]
  refine ⟨hmain, ?_, ?_⟩
  · intro xs hw
    simp [load_trajectory_json, hw]
  · intro elems hl
    rw [hmain, hl]
    simp [load_jsonl, load_jsonl_go]

/-- Witness for C2 at the one-line bare-array file `[3]`. -/
theorem C2_witness :
    smart_load ⟨some (Json.arr [Json.num 3]), false, [LineP.ok (Json.arr [Json.num 3])]⟩
      = (Json.arr [Json.arr [Json.num 3]], "jsonl", []) ∧
    load_trajectory_json ⟨some (Json.arr [Json.num 3]), false, [LineP.ok (Json.arr [Json.num 3])]⟩
      = .ok (Json.arr [Json.num 3]) := by
  have h := C2_amended ⟨some (Json.arr [Json.num 3]), false,
    [LineP.ok (Json.arr [Json.num 3])]⟩ rfl
  exact ⟨h.2.2 [Json.num 3] rfl, h.2.1 [Json.num 3] rfl⟩

/-- C1 counterexample: requesting line 0 does not produce a range
diagnostic with a non-zero exit.  `main` guards the line handler with
`if args.line:`, and 0 is falsy in Python, so with `-l 0` the program
never runs `show_line` at all: it falls through to the default
summary, which prints and exits successfully. -/
theorem C1_counterexample :
    lineRequest [Json.obj []] { line := some 0 } = .notInvoked .actSummary ∧
    lineRequest [Json.obj []] { line := some 0 } ≠ .handled (.outOfRange 1) ∧
    show_summary [Json.obj []] = .ok ⟨1, [(Json.str "unknown", 1)], false⟩ := by
  exact ⟨by decide, by decide, by decide⟩

/-- C1 amended: requesting line N with 1 ≤ N ≤ record count prints
exactly the record at position N (and the process exits successfully);
every NONZERO N outside that range produces the range diagnostic and a
non-zero exit with no record printed; but N = 0, being falsy, is
treated as if no line had been requested — `main` dispatches to some
other handler (the summary when no other flag is given) and exits
successfully. -/
theorem C1_line_display :
    (∀ (records : List Json) (n : Int) (j : Json),
        1 ≤ n → n ≤ records.length →
        records.get? (n.toNat - 1) = some j →
        show_line records n = .printed j ∧
        lineRequest records { line := some n } = .handled (.printed j)) ∧
    (∀ (records : List Json) (n : Int), n ≠ 0 →
        (n < 1 ∨ (records.length : Int) < n) →
        lineRequest records { line := some n } =
          .handled (.outOfRange records.length)) ∧
    (∀ (a : Args) (records : List Json), a.line = some 0 →
        ∃ other, lineRequest records a = .notInvoked other) ∧
    (∀ records : List Json,
        lineRequest records { line := some 0 } = .notInvoked .actSummary) := by
  have hline : ∀ (records : List Json) (n : Int), n ≠ 0 →
      lineRequest records { line := some n } = .handled (show_line records n) := by
    intro records n hn
    have : optIntTruthy (some n) = true := by simp [optIntTruthy, hn]
    simp [lineRequest, dispatch, this]
  refine ⟨?_, ?_, ?_, ?_⟩
  · intro records n j h1 h2 hj
    have hn0 : n ≠ 0 := by omega
    have hcond : 0 ≤ n - 1 ∧ n - 1 < (records.length : Int) := by omega
    have hidx : (n - 1).toNat = n.toNat - 1 := by omega
    have hshow : show_line records n = .printed j := by
      rw [show_line]
      rw [if_pos hcond, hidx]
      have := List.getD_eq_getElem?_getD records (n.toNat - 1) Json.null
      rw [this]
      simp [← List.get?_eq_getElem?, hj]
    exact ⟨hshow, by rw [hline records n hn0, hshow]⟩
  · intro records n hn hout
    have hcond : ¬(0 ≤ n - 1 ∧ n - 1 < (records.length : Int)) := by omega
    have hshow : show_line records n = .outOfRange records.length := by
      rw [show_line, if_neg hcond]
    rw [hline records n hn, hshow]
  · intro a records h
    have h0 : optIntTruthy a.line = false := by simp [h, optIntTruthy]
    by_cases h1 : optStrTruthy a.type_filter
    · exact ⟨.actFilter (a.type_filter.getD ""),
        by simp [lineRequest, dispatch, h0, h1]⟩
    · by_cases h2 : optStrTruthy a.keys
      · exact ⟨.actKeys (a.keys.getD ""),
          by simp [lineRequest, dispatch, h0, h1, h2]⟩
      · by_cases h3 : a.analyzeFlag
        · exact ⟨.actAnalyze, by simp [lineRequest, dispatch, h0, h1, h2, h3]⟩
        · by_cases h4 : a.codeFlag
          · exact ⟨.actCode, by simp [lineRequest, dispatch, h0, h1, h2, h3, h4]⟩
          · exact ⟨.actSummary, by simp [lineRequest, dispatch, h0, h1, h2, h3, h4]⟩
  · intro records
    simp [lineRequest, dispatch, optIntTruthy, optStrTruthy]

/-- Witness for C1 at a two-record sequence: line 2 in range, line 3
out of range, line 0 falls through to the summary. -/
theorem C1_witness :
    show_line [Json.obj [], Json.num 7] 2 = .printed (Json.num 7) ∧
    lineRequest [Json.obj [], Json.num 7] { line := some 3 } = .handled (.outOfRange 2) ∧
    lineRequest [Json.obj [], Json.num 7] { line := some 0 } = .notInvoked .actSummary := by
  refine ⟨(C1_line_display.1 [Json.obj [], Json.num 7] 2 (Json.num 7)
    (by omega) (by simp) (by decide)).1, ?_, C1_line_display.2.2.2 _⟩
  have h := C1_line_display.2.1 [Json.obj [], Json.num 7] 3 (by omega) (by right; simp)
  simpa using h

/-- A value passing `isObj` is a dict. -/
theorem isObj_exists : ∀ v : Json, isObj v = true → ∃ kvs, v = Json.obj kvs
  | .obj kvs, _ => ⟨kvs, rfl⟩
  | .null, h => Bool.noConfusion h
  | .bool _, h => Bool.noConfusion h
  | .num _, h => Bool.noConfusion h
  | .str _, h => Bool.noConfusion h
  | .arr _, h => Bool.noConfusion h

/-- A value passing `isStr` is a string. -/
theorem isStr_exists : ∀ v : Json, isStr v = true → ∃ s, v = Json.str s
  | .str s, _ => ⟨s, rfl⟩
  | .null, h => Bool.noConfusion h
  | .bool _, h => Bool.noConfusion h
  | .num _, h => Bool.noConfusion h
  | .arr _, h => Bool.noConfusion h
  | .obj _, h => Bool.noConfusion h

/-- A numeric-usable value feeds `pyNum` without error. -/
theorem pyNum_ok : ∀ v : Json, isNumB v = true → ∃ q, pyNum v = .ok q
  | .num q, _ => ⟨q, rfl⟩
  | .bool b, _ => ⟨if b then 1 else 0, rfl⟩
  | .null, h => Bool.noConfusion h
  | .str _, h => Bool.noConfusion h
  | .arr _, h => Bool.noConfusion h
  | .obj _, h => Bool.noConfusion h

/-- A lenable value feeds `len` without error. -/
theorem pyLenJ_ok : ∀ v : Json, lenable v = true → ∃ n, pyLenJ v = .ok n
  | .str s, _ => ⟨s.length, rfl⟩
  | .arr xs, _ => ⟨xs.length, rfl⟩
  | .obj kvs, _ => ⟨kvs.length, rfl⟩
  | .null, h => Bool.noConfusion h
  | .bool _, h => Bool.noConfusion h
  | .num _, h => Bool.noConfusion h

/-- Once the result loop found its record it breaks: later records are
passed over untouched. -/
theorem foldlM_result_found :
    ∀ (rest : List Json) (rep : ResultReport),
      rest.foldlM result_step (some rep) = .ok (some rep) := by
  intro rest
  induction rest with
  | nil => intro rep; rfl
  | cons r rs ih => intro rep; simp [List.foldlM, result_step, ih]

/-- C4 counterexample: for a result record with no outcome fields at
all, the analyzer reports duration 0, cost 0 and token counts 0 — but
the turn count is fetched with NO default (`r.get("num_turns")`), so
it is reported as None (null), not zero, refuting the claim that
every missing numeric outcome field (turn count included) defaults to
zero. -/
theorem C4_counterexample :
    analyze_claude_code [Json.obj [("type", Json.str "result")]] =
      .ok ⟨none, some ⟨false, 0, Json.null, 0, Json.num 0, Json.num 0,
                       Json.num 0, Json.num 0⟩, [], [], []⟩ ∧
    Json.null ≠ Json.num 0 := by
  constructor
  · simp [analyze_claude_code, List.foldlM, session_step, result_step,
      tool_err_step, thinking_step, pyGet, pyGetD, pyNum, dictGet, dictGetD,
      jlookup, List.enumFrom]
  · decide

/-- C4 amended: in the result block of the deep analysis, the first
result record reports duration, cost and the four token counters with
default zero when missing; when `usage` is a present dict, each token
counter is the value fetched from it (default zero per counter); the
reported duration in seconds is the millisecond value divided by 1000;
the turn count however carries no default and is reported as the raw
fetch (null when missing). -/
theorem C4_result_defaults :
    (∀ (kvs : List (String × Json)) (rest : List Json),
        dictGet kvs "type" = Json.str "result" →
        jlookup kvs "duration_ms" = none →
        jlookup kvs "total_cost_usd" = none →
        jlookup kvs "usage" = none →
        (Json.obj kvs :: rest).foldlM result_step none =
          .ok (some ⟨decide (dictGet kvs "subtype" = Json.str "success"), 0,
                     dictGet kvs "num_turns", 0,
                     Json.num 0, Json.num 0, Json.num 0, Json.num 0⟩)) ∧
    (∀ (kvs ukvs : List (String × Json)) (rest : List Json) (q cq : ℚ),
        dictGet kvs "type" = Json.str "result" →
        jlookup kvs "duration_ms" = some (Json.num q) →
        pyNum (dictGetD kvs "total_cost_usd" (Json.num 0)) = .ok cq →
        dictGetD kvs "usage" (Json.obj []) = Json.obj ukvs →
        ∃ rep : ResultReport,
          (Json.obj kvs :: rest).foldlM result_step none = .ok (some rep) ∧
          rep.durationSec = q / 1000 ∧ rep.cost = cq ∧
          rep.numTurns = dictGet kvs "num_turns" ∧
          rep.inputTokens = dictGetD ukvs "input_tokens" (Json.num 0) ∧
          rep.outputTokens = dictGetD ukvs "output_tokens" (Json.num 0) ∧
          rep.cacheRead = dictGetD ukvs "cache_read_input_tokens" (Json.num 0) ∧
          rep.cacheCreation = dictGetD ukvs "cache_creation_input_tokens" (Json.num 0)) := by
  constructor
  · intro kvs rest ht hd hc hu
    have hstep : result_step none (Json.obj kvs) =
        .ok (some ⟨decide (dictGet kvs "subtype" = Json.str "success"), 0,
                   dictGet kvs "num_turns", 0,
                   Json.num 0, Json.num 0, Json.num 0, Json.num 0⟩) := by
      have hdur : dictGetD kvs "duration_ms" (Json.num 0) = Json.num 0 := by
        simp [dictGetD, hd]
      have hcost : dictGetD kvs "total_cost_usd" (Json.num 0) = Json.num 0 := by
        simp [dictGetD, hc]
      have husage : dictGetD kvs "usage" (Json.obj []) = Json.obj [] := by
        simp [dictGetD, hu]
      have hdur2 : pyNum (dictGetD kvs "duration_ms" (Json.num 0)) = .ok 0 := by
        rw [hdur]; rfl
      have hcost2 : pyNum (dictGetD kvs "total_cost_usd" (Json.num 0)) = .ok 0 := by
        rw [hcost]; rfl
      simp [result_step, pyGet, pyGetD, ht, hdur2, hcost2, husage]
      simp [dictGetD, jlookup]
    simp only [List.foldlM, hstep, exc_bind_ok]
    rw [foldlM_result_found]
  · intro kvs ukvs rest q cq ht hd hcq huk
    refine ⟨⟨decide (dictGet kvs "subtype" = Json.str "success"), q / 1000,
        dictGet kvs "num_turns", cq,
        dictGetD ukvs "input_tokens" (Json.num 0),
        dictGetD ukvs "output_tokens" (Json.num 0),
        dictGetD ukvs "cache_read_input_tokens" (Json.num 0),
        dictGetD ukvs "cache_creation_input_tokens" (Json.num 0)⟩,
      ?_, rfl, rfl, rfl, rfl, rfl, rfl, rfl⟩
    have hdur : dictGetD kvs "duration_ms" (Json.num 0) = Json.num q := by
      simp [dictGetD, hd]
    have hdur2 : pyNum (dictGetD kvs "duration_ms" (Json.num 0)) = .ok q := by
      rw [hdur]; rfl
    have hstep : result_step none (Json.obj kvs) =
        .ok (some ⟨decide (dictGet kvs "subtype" = Json.str "success"), q / 1000,
            dictGet kvs "num_turns", cq,
            dictGetD ukvs "input_tokens" (Json.num 0),
            dictGetD ukvs "output_tokens" (Json.num 0),
            dictGetD ukvs "cache_read_input_tokens" (Json.num 0),
            dictGetD ukvs "cache_creation_input_tokens" (Json.num 0)⟩) := by
      simp [result_step, pyGet, pyGetD, ht, hdur2, hcq, huk]
    simp only [List.foldlM, hstep, exc_bind_ok]
    rw [foldlM_result_found]

/-- Witness for C4 at the spec example record
`{"type":"result","total_cost_usd":0.0012,"duration_ms":1500,
"usage":{"input_tokens":10,"output_tokens":20}}` (0.0012 taken as the
exact rational 3/2500): duration 1500/1000 = 3/2 seconds, cost 3/2500,
input tokens 10, output tokens 20, cache counters 0, and the turn
count reported as null. -/
theorem C4_witness :
    (∃ rep : ResultReport,
      [Json.obj [("type", Json.str "result"),
                 ("total_cost_usd", Json.num (3 / 2500)),
                 ("duration_ms", Json.num 1500),
                 ("usage", Json.obj [("input_tokens", Json.num 10),
                                     ("output_tokens", Json.num 20)])]].foldlM
        result_step none = .ok (some rep) ∧
      rep.durationSec = 1500 / 1000 ∧ rep.cost = 3 / 2500 ∧
      rep.numTurns = Json.null ∧
      rep.inputTokens = Json.num 10 ∧ rep.outputTokens = Json.num 20 ∧
      rep.cacheRead = Json.num 0 ∧ rep.cacheCreation = Json.num 0) ∧
    (1500 : ℚ) / 1000 = 3 / 2 := by
  constructor
  · have h := C4_result_defaults.2
      [("type", Json.str "result"),
       ("total_cost_usd", Json.num (3 / 2500)),
       ("duration_ms", Json.num 1500),
       ("usage", Json.obj [("input_tokens", Json.num 10),
                           ("output_tokens", Json.num 20)])]
      [("input_tokens", Json.num 10), ("output_tokens", Json.num 20)]
      [] 1500 (3 / 2500) rfl rfl rfl rfl
    obtain ⟨rep, h1, h2, h3, h4, h5, h6, h7, h8⟩ := h
    exact ⟨rep, h1, h2, h3, by rw [h4]; rfl, by rw [h5]; rfl,
      by rw [h6]; rfl, by rw [h7]; rfl, by rw [h8]; rfl⟩
  · norm_num

theorem extract_changes_decomp_go (fmt : String) :
    ∀ (ps : List (Nat × Json)) (acc : List CodeChange),
      ps.foldlM (fun acc p => do
        let a ← rule_assistant p.1 p.2
        let b ← rule_tool_calls p.1 p.2
        let c ← rule_trajectory fmt p.1 p.2
        pure (acc ++ a ++ b ++ c)) acc
      = (do
          let ls ← mapE (extract_record fmt) ps
          pure (acc ++ ls.flatten)) := by
  intro ps
  induction ps with
  | nil => intro acc; simp [mapE, List.foldlM]
  | cons p rest ih =>
      intro acc
      simp only [List.foldlM, mapE, extract_record]
      cases h1 : rule_assistant p.1 p.2 with
      | error e => rfl
      | ok a =>
        cases h2 : rule_tool_calls p.1 p.2 with
        | error e => rfl
        | ok b =>
          cases h3 : rule_trajectory fmt p.1 p.2 with
          | error e => rfl
          | ok c =>
            simp only [h1, h2, h3, exc_bind_ok, ih]
            cases h4 : mapE (extract_record fmt) rest <;>
              simp [h4, List.append_assoc]

/-- A successfully rendered detail carries its own change. -/
theorem render_detail_change (c : CodeChange) (d : Detail)
    (h : render_detail c = .ok d) : d.change = c := by
  unfold render_detail at h
  cases hn : pyLenJ c.content with
  | error e => rw [hn] at h; simp at h
  | ok n =>
      rw [hn] at h
      simp only [exc_bind_ok] at h
      by_cases h3 : n > 3000
      · rw [if_pos h3] at h
        cases hs : pySlice c.content 3000 with
        | error e => rw [hs] at h; simp at h
        | ok sl =>
            rw [hs] at h
            simp only [exc_bind_ok] at h
            have h2 : Except.ok (⟨c, sl, some n⟩ : Detail) = Except.ok d := h
            have h4 := Except.ok.inj h2
            rw [← h4]
      · rw [if_neg h3] at h
        have h2 : Except.ok (⟨c, c.content, none⟩ : Detail) = Except.ok d := h
        have h4 := Except.ok.inj h2
        rw [← h4]

/-- A successful rendering pass maps each change to its own detail, in
order. -/
theorem render_details_map :
    ∀ (cs : List CodeChange) (ds : List Detail),
      render_details cs = .ok ds → ds.map Detail.change = cs := by
  intro cs
  induction cs with
  | nil =>
      intro ds h
      have h2 : Except.ok ([] : List Detail) = Except.ok ds := h
      cases h2
      rfl
  | cons c rest ih =>
      intro ds h
      simp only [render_details, mapE] at h
      cases hc : render_detail c with
      | error e => rw [hc] at h; simp at h
      | ok d =>
          rw [hc] at h
          cases hrest : mapE render_detail rest with
          | error e => rw [hrest] at h; simp at h
          | ok ds2 =>
              rw [hrest] at h
              simp at h
              rw [← h]
              simp [render_detail_change c d hc,
                ih ds2 (by simp [render_details, hrest])]

/-- C7: the scan emits, for each record in order, the rule-1 changes,
then the rule-2 changes, then the rule-3 changes (the per-record
emission is `extract_record`, rule concatenation in rule order, and
the whole scan is their in-order join); and the later stages never
reorder: a successful extraction report returns exactly the scanned
list, and its rendered details carry the changes in the same order. -/
theorem C7_discovery_order :
    (∀ (fmt : String) (records : List Json),
        extract_changes fmt records = (do
          let ls ← mapE (extract_record fmt) (records.enumFrom 1)
          pure ls.flatten)) ∧
    (∀ (fmt : String) (records : List Json) (dir : Option String)
        (rep : ExtractReport),
        extract_agent_code fmt records dir = .ok (some rep) →
        extract_changes fmt records = .ok rep.changes ∧
        rep.details.map Detail.change = rep.changes) := by
  constructor
  · intro fmt records
    have h := extract_changes_decomp_go fmt (records.enumFrom 1) []
    rw [extract_changes, h]
    cases h4 : mapE (extract_record fmt) (records.enumFrom 1) with
    | error e => rfl
    | ok ls => simp
  · intro fmt records dir rep h
    unfold extract_agent_code at h
    cases hcs : extract_changes fmt records with
    | error e =>
        rw [hcs] at h
        exact Except.noConfusion h
    | ok cs =>
        rw [hcs] at h
        simp only [exc_bind_ok] at h
        by_cases hemp : cs.isEmpty
        · rw [if_pos hemp] at h
          have h3 : (none : Option ExtractReport) = some rep := Except.ok.inj h
          exact Option.noConfusion h3
        · rw [if_neg hemp] at h
          cases hst : file_stats cs with
          | error e =>
              rw [hst] at h
              exact Except.noConfusion h
          | ok st =>
              rw [hst] at h
              simp only [exc_bind_ok] at h
              cases hds : render_details cs with
              | error e =>
                  rw [hds] at h
                  exact Except.noConfusion h
              | ok ds =>
                  rw [hds] at h
                  simp only [exc_bind_ok] at h
                  cases dir with
                  | none =>
                      have h2 : Except.ok (some (⟨cs, st, ds, []⟩ : ExtractReport))
                          = Except.ok (some rep) := h
                      have h3 := Except.ok.inj h2
                      have h4 := Option.some.inj h3
                      rw [← h4]
                      exact ⟨rfl, render_details_map cs ds hds⟩
                  | some d =>
                      cases hfs : mapE (fun p => persist_file p.1 p.2) (cs.enumFrom 1) with
                      | error e =>
                          rw [hfs] at h
                          exact Except.noConfusion h
                      | ok fs =>
                          rw [hfs] at h
                          have h2 : Except.ok (some (⟨cs, st, ds, fs⟩ : ExtractReport))
                              = Except.ok (some rep) := h
                          have h3 := Except.ok.inj h2
                          have h4 := Option.some.inj h3
                          rw [← h4]
                          exact ⟨rfl, render_details_map cs ds hds⟩

/-- Witness for C7: one assistant Write record yields exactly one
create change, and the report returns the scan list and details in
that order. -/
theorem C7_witness :
    extract_agent_code "jsonl"
      [Json.obj [("type", Json.str "assistant"),
        ("message", Json.obj [("content", Json.arr [Json.obj
          [("type", Json.str "tool_use"), ("name", Json.str "Write"),
           ("input", Json.obj [("file_path", Json.str "a.py"),
                               ("content", Json.str "print(1)")])]])])]] none
      = .ok (some ⟨[⟨Json.num 1, "Write", Json.str "a.py", "create", Json.str "print(1)"⟩],
          [(Json.str "a.py", 1, 0)],
          [⟨⟨Json.num 1, "Write", Json.str "a.py", "create", Json.str "print(1)"⟩,
            Json.str "print(1)", none⟩], []⟩) ∧
    extract_changes "jsonl"
      [Json.obj [("type", Json.str "assistant"),
        ("message", Json.obj [("content", Json.arr [Json.obj
          [("type", Json.str "tool_use"), ("name", Json.str "Write"),
           ("input", Json.obj [("file_path", Json.str "a.py"),
                               ("content", Json.str "print(1)")])]])])]]
      = .ok [⟨Json.num 1, "Write", Json.str "a.py", "create", Json.str "print(1)"⟩] ∧
    ([⟨⟨Json.num 1, "Write", Json.str "a.py", "create", Json.str "print(1)"⟩,
       Json.str "print(1)", none⟩] : List Detail).map Detail.change
      = [⟨Json.num 1, "Write", Json.str "a.py", "create", Json.str "print(1)"⟩] := by
  have h : extract_agent_code "jsonl"
      [Json.obj [("type", Json.str "assistant"),
        ("message", Json.obj [("content", Json.arr [Json.obj
          [("type", Json.str "tool_use"), ("name", Json.str "Write"),
           ("input", Json.obj [("file_path", Json.str "a.py"),
                               ("content", Json.str "print(1)")])]])])]] none
      = .ok (some ⟨[⟨Json.num 1, "Write", Json.str "a.py", "create", Json.str "print(1)"⟩],
          [(Json.str "a.py", 1, 0)],
          [⟨⟨Json.num 1, "Write", Json.str "a.py", "create", Json.str "print(1)"⟩,
            Json.str "print(1)", none⟩], []⟩) := by decide
  have h2 := C7_discovery_order.2 "jsonl"
      [Json.obj [("type", Json.str "assistant"),
        ("message", Json.obj [("content", Json.arr [Json.obj
          [("type", Json.str "tool_use"), ("name", Json.str "Write"),
           ("input", Json.obj [("file_path", Json.str "a.py"),
                               ("content", Json.str "print(1)")])]])])]] none
      ⟨[⟨Json.num 1, "Write", Json.str "a.py", "create", Json.str "print(1)"⟩],
       [(Json.str "a.py", 1, 0)],
       [⟨⟨Json.num 1, "Write", Json.str "a.py", "create", Json.str "print(1)"⟩,
         Json.str "print(1)", none⟩], []⟩ h
  exact ⟨h, h2.1, h2.2⟩

theorem wfInput_destruct : ∀ v : Json, wfInput v = true →
    ∃ ikvs, v = Json.obj ikvs ∧
      isStr (dictGetD ikvs "file_path" (Json.str "unknown")) = true ∧
      isStr (dictGetD ikvs "content" (Json.str "")) = true := by
  intro v h
  cases v with
  | obj ikvs =>
      simp only [wfInput, Bool.and_eq_true] at h
      exact ⟨ikvs, rfl, h.1, h.2⟩
  | null => exact Bool.noConfusion h
  | bool b => exact Bool.noConfusion h
  | num q => exact Bool.noConfusion h
  | str s => exact Bool.noConfusion h
  | arr xs => exact Bool.noConfusion h

theorem wfContentItem_destruct : ∀ c : Json, wfContentItem c = true →
    ∃ kvs, c = Json.obj kvs ∧
      hashable (dictGet kvs "name") = true ∧
      isStr (dictGetD kvs "text" (Json.str "")) = true ∧
      isStr (dictGetD kvs "content" (Json.str "")) = true ∧
      wfInput (dictGetD kvs "input" (Json.obj [])) = true := by
  intro c h
  cases c with
  | obj kvs =>
      simp only [wfContentItem, Bool.and_eq_true] at h
      obtain ⟨⟨⟨h1, h2⟩, h3⟩, h4⟩ := h
      exact ⟨kvs, rfl, h1, h2, h3, h4⟩
  | null => exact Bool.noConfusion h
  | bool b => exact Bool.noConfusion h
  | num q => exact Bool.noConfusion h
  | str s => exact Bool.noConfusion h
  | arr xs => exact Bool.noConfusion h

theorem wfContent_destruct : ∀ v : Json, wfContent v = true →
    ∃ items, v = Json.arr items ∧ ∀ c ∈ items, wfContentItem c = true := by
  intro v h
  cases v with
  | arr items =>
      simp only [wfContent, List.all_eq_true] at h
      exact ⟨items, rfl, h⟩
  | null => exact Bool.noConfusion h
  | bool b => exact Bool.noConfusion h
  | num q => exact Bool.noConfusion h
  | str s => exact Bool.noConfusion h
  | obj kvs => exact Bool.noConfusion h

theorem wfMessage_destruct : ∀ v : Json, wfMessage v = true →
    ∃ mkvs, v = Json.obj mkvs ∧
      wfContent (dictGetD mkvs "content" (Json.arr [])) = true := by
  intro v h
  cases v with
  | obj mkvs => exact ⟨mkvs, rfl, h⟩
  | null => exact Bool.noConfusion h
  | bool b => exact Bool.noConfusion h
  | num q => exact Bool.noConfusion h
  | str s => exact Bool.noConfusion h
  | arr xs => exact Bool.noConfusion h

theorem wfToolCall_destruct : ∀ tc : Json, wfToolCall tc = true →
    ∃ kvs, tc = Json.obj kvs ∧
      wfInput (dictGetD kvs "arguments" (Json.obj [])) = true := by
  intro tc h
  cases tc with
  | obj kvs => exact ⟨kvs, rfl, h⟩
  | null => exact Bool.noConfusion h
  | bool b => exact Bool.noConfusion h
  | num q => exact Bool.noConfusion h
  | str s => exact Bool.noConfusion h
  | arr xs => exact Bool.noConfusion h

theorem wfToolCalls_destruct : ∀ v : Json, wfToolCalls v = true →
    ∃ tcs, v = Json.arr tcs ∧ ∀ tc ∈ tcs, wfToolCall tc = true := by
  intro v h
  cases v with
  | arr tcs =>
      simp only [wfToolCalls, List.all_eq_true] at h
      exact ⟨tcs, rfl, h⟩
  | null => exact Bool.noConfusion h
  | bool b => exact Bool.noConfusion h
  | num q => exact Bool.noConfusion h
  | str s => exact Bool.noConfusion h
  | obj kvs => exact Bool.noConfusion h

theorem wfRecord_destruct : ∀ r : Json, wfRecord r = true →
    ∃ kvs, r = Json.obj kvs ∧
      hashable (dictGetD kvs "type" (Json.str "unknown")) = true ∧
      lenable (dictGetD kvs "tools" (Json.arr [])) = true ∧
      isNumB (dictGetD kvs "duration_ms" (Json.num 0)) = true ∧
      isNumB (dictGetD kvs "total_cost_usd" (Json.num 0)) = true ∧
      isObj (dictGetD kvs "usage" (Json.obj [])) = true ∧
      wfMessage (dictGetD kvs "message" (Json.obj [])) = true ∧
      wfToolCalls (dictGetD kvs "tool_calls" (Json.arr [])) = true := by
  intro r h
  cases r with
  | obj kvs =>
      simp only [wfRecord, Bool.and_eq_true] at h
      obtain ⟨⟨⟨⟨⟨⟨h1, h2⟩, h3⟩, h4⟩, h5⟩, h6⟩, h7⟩ := h
      exact ⟨kvs, rfl, h1, h2, h3, h4, h5, h6, h7⟩
  | null => exact Bool.noConfusion h
  | bool b => exact Bool.noConfusion h
  | num q => exact Bool.noConfusion h
  | str s => exact Bool.noConfusion h
  | arr xs => exact Bool.noConfusion h

/-- `v.get` on a dict succeeds (targeted reduction that leaves `pyGet`
applied to a variable untouched). -/
@[simp]
theorem pyGet_obj (kvs : List (String × Json)) (k : String) :
    pyGet (Json.obj kvs) k = .ok (dictGet kvs k) := rfl

/-- `v.get` with default on a dict succeeds. -/
@[simp]
theorem pyGetD_obj (kvs : List (String × Json)) (k : String) (d : Json) :
    pyGetD (Json.obj kvs) k d = .ok (dictGetD kvs k d) := rfl

/-- Iterating a list value succeeds. -/
@[simp]
theorem pyIter_arr (xs : List Json) : pyIter (Json.arr xs) = .ok xs := rfl

/-- Slicing a string value succeeds. -/
@[simp]
theorem pySlice_str (s : String) (n : Nat) :
    pySlice (Json.str s) n = .ok (.str (s.take n)) := rfl

/-- A string literal passes `isStr`. -/
@[simp]
theorem isStr_str (s : String) : isStr (Json.str s) = true := rfl

/-- A string key is hashable. -/
theorem hashable_of_isStr : ∀ v : Json, isStr v = true → hashable v = true
  | .str _, _ => rfl
  | .null, h => Bool.noConfusion h
  | .bool _, h => Bool.noConfusion h
  | .num _, h => Bool.noConfusion h
  | .arr _, h => Bool.noConfusion h
  | .obj _, h => Bool.noConfusion h

theorem summary_step_ok (types : List (Json × Nat)) (r : Json)
    (h : wfRecord r = true) : ∃ t2, summary_step types r = .ok t2 := by
  obtain ⟨kvs, rfl, h1, -⟩ := wfRecord_destruct r h
  refine ⟨bump types (dictGetD kvs "type" (Json.str "unknown")), ?_⟩
  simp [summary_step, pyGetD, h1]

theorem claude_probe_step_ok (b : Bool) (r : Json)
    (h : wfRecord r = true) : ∃ b2, claude_probe_step b r = .ok b2 := by
  obtain ⟨kvs, rfl, -⟩ := wfRecord_destruct r h
  cases b with
  | true => exact ⟨true, rfl⟩
  | false =>
      cases hres : claude_probe_step false (Json.obj kvs) with
      | ok b2 => exact ⟨b2, rfl⟩
      | error e =>
          exfalso
          revert hres
          by_cases ht : dictGet kvs "type" = Json.str "system" <;>
            simp [claude_probe_step, pyGet, ht]

theorem session_step_ok (st : Option SessionInfo) (r : Json)
    (h : wfRecord r = true) : ∃ st2, session_step st r = .ok st2 := by
  obtain ⟨kvs, rfl, -, h2, -⟩ := wfRecord_destruct r h
  cases st with
  | some info => exact ⟨some info, rfl⟩
  | none =>
      obtain ⟨n, hn⟩ := pyLenJ_ok _ h2
      cases hres : session_step none (Json.obj kvs) with
      | ok st2 => exact ⟨st2, rfl⟩
      | error e =>
          exfalso
          revert hres
          by_cases ht : dictGet kvs "type" = Json.str "system" <;>
            by_cases hs : dictGet kvs "subtype" = Json.str "init" <;>
              simp [session_step, pyGet, pyGetD, ht, hs, hn]

theorem result_step_ok (st : Option ResultReport) (r : Json)
    (h : wfRecord r = true) : ∃ st2, result_step st r = .ok st2 := by
  obtain ⟨kvs, rfl, -, -, h3, h4, h5, -⟩ := wfRecord_destruct r h
  cases st with
  | some rep => exact ⟨some rep, rfl⟩
  | none =>
      obtain ⟨dq, hdq⟩ := pyNum_ok _ h3
      obtain ⟨cq, hcq⟩ := pyNum_ok _ h4
      obtain ⟨ukvs, huk⟩ := isObj_exists _ h5
      cases hres : result_step none (Json.obj kvs) with
      | ok st2 => exact ⟨st2, rfl⟩
      | error e =>
          exfalso
          revert hres
          by_cases ht : dictGet kvs "type" = Json.str "result" <;>
            simp [result_step, pyGet, pyGetD, ht, hdq, hcq, huk]

theorem show_summary_ok (records : List Json)
    (h : ∀ r ∈ records, wfRecord r = true) :
    ∃ s, show_summary records = .ok s := by
  obtain ⟨types, htypes⟩ := foldlM_ok summary_step wfRecord
    (fun b a ha => summary_step_ok b a ha) records [] h
  obtain ⟨hint, hhint⟩ := foldlM_ok claude_probe_step wfRecord
    (fun b a ha => claude_probe_step_ok b a ha) records false h
  exact ⟨⟨records.length, types, hint⟩, by simp [show_summary, htypes, hhint]⟩

theorem show_by_type_ok (records : List Json) (tf : String)
    (h : ∀ r ∈ records, wfRecord r = true) :
    ∃ rows, show_by_type records tf = .ok rows := by
  apply foldlM_ok _ (fun p => wfRecord p.2)
  · intro b p hp
    obtain ⟨kvs, hk, -⟩ := wfRecord_destruct p.2 hp
    refine ⟨if dictGet kvs "type" = Json.str tf then b ++ [p] else b, ?_⟩
    simp [hk, pyGet]
  · rw [List.forall_mem_enumFrom]
    intro i hi
    exact h _ (List.getElem_mem hi)

theorem tool_err_step_ok (st : List (Json × Nat) × List (Nat × Json))
    (p : Nat × Json) (h : wfRecord p.2 = true) :
    ∃ st2, tool_err_step st p = .ok st2 := by
  obtain ⟨kvs, hr, -, -, -, -, -, hmsg, -⟩ := wfRecord_destruct p.2 h
  obtain ⟨mkvs, hmk, hcont⟩ := wfMessage_destruct _ hmsg
  obtain ⟨items, hit, hitems⟩ := wfContent_destruct _ hcont
  have hfold1 : ∀ acc : List (Json × Nat), ∃ acc2,
      items.foldlM (fun acc c => do
        let ct ← pyGet c "type"
        if ct = Json.str "tool_use" then do
          let name ← pyGet c "name"
          if hashable name then pure (bump acc name)
          else Except.error "TypeError: unhashable type"
        else pure acc) acc = .ok acc2 := by
    intro acc
    apply foldlM_ok _ wfContentItem _ items acc hitems
    intro b c hc
    obtain ⟨ckvs, rfl, hn, -, -, -⟩ := wfContentItem_destruct c hc
    by_cases hct : dictGet ckvs "type" = Json.str "tool_use"
    · exact ⟨bump b (dictGet ckvs "name"), by simp [pyGet, hct, hn]⟩
    · exact ⟨b, by simp [pyGet, hct]⟩
  have hfold2 : ∀ acc : List (Nat × Json), ∃ acc2,
      items.foldlM (fun acc c => do
        let e ← pyGet c "is_error"
        if truthy e then do
          let txt ← pyGetD c "content" (Json.str "")
          let sl ← pySlice txt 80
          pure (acc ++ [(p.1, sl)])
        else pure acc) acc = .ok acc2 := by
    intro acc
    apply foldlM_ok _ wfContentItem _ items acc hitems
    intro b c hc
    obtain ⟨ckvs, rfl, -, -, hcs, -⟩ := wfContentItem_destruct c hc
    obtain ⟨s, hs⟩ := isStr_exists _ hcs
    by_cases he : truthy (dictGet ckvs "is_error") = true
    · exact ⟨b ++ [(p.1, Json.str (s.take 80))],
        by simp [pyGet, pyGetD, he, hs, pySlice]⟩
    · exact ⟨b, by simp [pyGet, pyGetD, he]⟩
  obtain ⟨acc1, hf1⟩ := hfold1 st.1
  obtain ⟨acc2, hf2⟩ := hfold2 st.2
  simp only [exc_pure_eq_ok] at hf1 hf2
  by_cases hta : dictGet kvs "type" = Json.str "assistant" <;>
    by_cases htu : dictGet kvs "type" = Json.str "user"
  · exfalso
    rw [hta] at htu
    simp at htu
  · exact ⟨(acc1, st.2),
      by simp [tool_err_step, hr, hta, htu, hmk, hit, hf1]⟩
  · exact ⟨(st.1, acc2),
      by simp [tool_err_step, hr, hta, htu, hmk, hit, hf2]⟩
  · exact ⟨(st.1, st.2),
      by simp [tool_err_step, hr, hta, htu]⟩

theorem thinking_step_ok (acc : List (Nat × Json)) (p : Nat × Json)
    (h : wfRecord p.2 = true) : ∃ acc2, thinking_step acc p = .ok acc2 := by
  obtain ⟨kvs, hr, -, -, -, -, -, hmsg, -⟩ := wfRecord_destruct p.2 h
  obtain ⟨mkvs, hmk, hcont⟩ := wfMessage_destruct _ hmsg
  obtain ⟨items, hit, hitems⟩ := wfContent_destruct _ hcont
  have hfold : ∀ st : Option Json, ∃ st2,
      items.foldlM (fun (found : Option Json) c => do
        match found with
        | some x => pure (some x)
        | none => do
          let ct ← pyGet c "type"
          if ct = Json.str "text" then do
            let txt ← pyGetD c "text" (Json.str "")
            let sl ← pySlice txt 60
            pure (some sl)
          else pure none) st = .ok st2 := by
    intro st
    apply foldlM_ok _ wfContentItem _ items st hitems
    intro b c hc
    obtain ⟨ckvs, rfl, -, hts, -, -⟩ := wfContentItem_destruct c hc
    obtain ⟨s, hs⟩ := isStr_exists _ hts
    cases b with
    | some x => exact ⟨some x, rfl⟩
    | none =>
        by_cases hct : dictGet ckvs "type" = Json.str "text"
        · exact ⟨some (Json.str (s.take 60)),
            by simp [pyGet, pyGetD, hct, hs, pySlice]⟩
        · exact ⟨none, by simp [pyGet, hct]⟩
  obtain ⟨ft, hft⟩ := hfold none
  simp only [exc_pure_eq_ok] at hft
  by_cases hta : dictGet kvs "type" = Json.str "assistant"
  · cases ft with
    | some sl => exact ⟨acc ++ [(p.1, sl)],
        by simp [thinking_step, hr, hta, hmk, hit, hft]⟩
    | none => exact ⟨acc,
        by simp [thinking_step, hr, hta, hmk, hit, hft]⟩
  · exact ⟨acc, by simp [thinking_step, hr, hta]⟩

theorem analyze_claude_code_ok (records : List Json)
    (h : ∀ r ∈ records, wfRecord r = true) :
    ∃ rep, analyze_claude_code records = .ok rep := by
  have henum : ∀ p ∈ records.enumFrom 1, wfRecord p.2 = true := by
    rw [List.forall_mem_enumFrom]
    intro i hi
    exact h _ (List.getElem_mem hi)
  obtain ⟨s, hs⟩ := foldlM_ok session_step wfRecord
    (fun b a ha => session_step_ok b a ha) records none h
  obtain ⟨res, hres⟩ := foldlM_ok result_step wfRecord
    (fun b a ha => result_step_ok b a ha) records none h
  obtain ⟨te, hte⟩ := foldlM_ok tool_err_step (fun p => wfRecord p.2)
    (fun b a ha => tool_err_step_ok b a ha) (records.enumFrom 1) ([], []) henum
  obtain ⟨th, hth⟩ := foldlM_ok thinking_step (fun p => wfRecord p.2)
    (fun b a ha => thinking_step_ok b a ha) (records.enumFrom 1) [] henum
  exact ⟨⟨s, res, te.1, te.2, th⟩,
    by simp [analyze_claude_code, hs, hres, hte, hth]⟩

theorem rule_assistant_ok (i : Nat) (r : Json) (h : wfRecord r = true) :
    ∃ l, rule_assistant i r = .ok l ∧ l.all goodChange = true := by
  obtain ⟨kvs, hr, -, -, -, -, -, hmsg, -⟩ := wfRecord_destruct r h
  obtain ⟨mkvs, hmk, hcont⟩ := wfMessage_destruct _ hmsg
  obtain ⟨items, hit, hitems⟩ := wfContent_destruct _ hcont
  by_cases ht : dictGet kvs "type" = Json.str "assistant"
  · have hfold : ∃ l, items.foldlM (fun acc c => do
        let ct ← pyGet c "type"
        if ct = Json.str "tool_use" then do
          let name ← pyGetD c "name" (Json.str "")
          let input ← pyGetD c "input" (Json.obj [])
          if name = Json.str "Write" then do
            let fp ← pyGetD input "file_path" (Json.str "unknown")
            let body ← pyGetD input "content" (Json.str "")
            pure (acc ++ [(⟨Json.num i, "Write", fp, "create", body⟩ : CodeChange)])
          else if name = Json.str "Edit" then do
            let fp ← pyGetD input "file_path" (Json.str "unknown")
            let o ← pyGetD input "old_string" (Json.str "")
            let n ← pyGetD input "new_string" (Json.str "")
            pure (acc ++ [(⟨Json.num i, "Edit", fp, "modify", synth_edit o n⟩ : CodeChange)])
          else pure acc
        else pure acc) [] = .ok l ∧ l.all goodChange = true := by
      apply foldlM_ok_inv _ wfContentItem (fun l => l.all goodChange = true)
        _ items [] rfl hitems
      intro b c hb hc
      obtain ⟨ckvs, rfl, -, -, -, hin⟩ := wfContentItem_destruct c hc
      obtain ⟨ikvs, hik, hfp, hbody⟩ := wfInput_destruct _ hin
      by_cases hct : dictGet ckvs "type" = Json.str "tool_use"
      · by_cases hw : dictGetD ckvs "name" (Json.str "") = Json.str "Write"
        · refine ⟨b ++ [⟨Json.num i, "Write",
              dictGetD ikvs "file_path" (Json.str "unknown"), "create",
              dictGetD ikvs "content" (Json.str "")⟩], ?_, ?_⟩
          · simp [hct, hw, hik]
          · simp [List.all_append, goodChange, hb, hfp, hbody]
        · by_cases he : dictGetD ckvs "name" (Json.str "") = Json.str "Edit"
          · refine ⟨b ++ [⟨Json.num i, "Edit",
                dictGetD ikvs "file_path" (Json.str "unknown"), "modify",
                synth_edit (dictGetD ikvs "old_string" (Json.str ""))
                  (dictGetD ikvs "new_string" (Json.str ""))⟩], ?_, ?_⟩
            · simp [hct, hw, he, hik]
            · simp [List.all_append, goodChange, hb, hfp, synth_edit]
          · exact ⟨b, by simp [hct, hw, he, hik], hb⟩
      · exact ⟨b, by simp [hct], hb⟩
    obtain ⟨l, hl, hg⟩ := hfold
    simp only [exc_pure_eq_ok] at hl
    exact ⟨l, by simp [rule_assistant, hr, ht, hmk, hit, hl], hg⟩
  · exact ⟨[], by simp [rule_assistant, hr, ht], rfl⟩


theorem rule_tool_calls_ok (i : Nat) (r : Json) (h : wfRecord r = true) :
    ∃ l, rule_tool_calls i r = .ok l ∧ l.all goodChange = true := by
  obtain ⟨kvs, hr, -, -, -, -, -, -, htc⟩ := wfRecord_destruct r h
  obtain ⟨tcs, htcs, halltc⟩ := wfToolCalls_destruct _ htc
  have hfold : ∃ l, tcs.foldlM (fun acc tc => do
      let fn ← pyGetD tc "function_name" (Json.str "")
      let args ← pyGetD tc "arguments" (Json.obj [])
      if fn = Json.str "Write" then do
        let fp ← pyGetD args "file_path" (Json.str "unknown")
        let body ← pyGetD args "content" (Json.str "")
        pure (acc ++ [(⟨Json.num i, "Write", fp, "create", body⟩ : CodeChange)])
      else pure acc) [] = .ok l ∧ l.all goodChange = true := by
    apply foldlM_ok_inv _ wfToolCall (fun l => l.all goodChange = true)
      _ tcs [] rfl halltc
    intro b tc hb htcw
    obtain ⟨ckvs, rfl, hargs⟩ := wfToolCall_destruct tc htcw
    obtain ⟨akvs, hak, hfp, hbody⟩ := wfInput_destruct _ hargs
    by_cases hw : dictGetD ckvs "function_name" (Json.str "") = Json.str "Write"
    · refine ⟨b ++ [⟨Json.num i, "Write",
          dictGetD akvs "file_path" (Json.str "unknown"), "create",
          dictGetD akvs "content" (Json.str "")⟩], ?_, ?_⟩
      · simp [hw, hak]
      · simp [List.all_append, goodChange, hb, hfp, hbody]
    · exact ⟨b, by simp [hw, hak], hb⟩
  obtain ⟨l, hl, hg⟩ := hfold
  simp only [exc_pure_eq_ok] at hl
  exact ⟨l, by simp [rule_tool_calls, hr, htcs, hl], hg⟩

theorem rule_trajectory_ok (fmt : String) (i : Nat) (r : Json)
    (h : wfRecord r = true) :
    ∃ l, rule_trajectory fmt i r = .ok l ∧ l.all goodChange = true := by
  obtain ⟨kvs, hr, -, -, -, -, -, -, htc⟩ := wfRecord_destruct r h
  obtain ⟨tcs, htcs, halltc⟩ := wfToolCalls_destruct _ htc
  by_cases hf : fmt = "trajectory"
  · have hfold : ∃ l, tcs.foldlM (fun acc tc => do
        let fn ← pyGetD tc "function_name" (Json.str "")
        let args ← pyGetD tc "arguments" (Json.obj [])
        if fn = Json.str "Write" then do
          let fp ← pyGetD args "file_path" (Json.str "unknown")
          let body ← pyGetD args "content" (Json.str "")
          pure (acc ++ [(⟨dictGetD kvs "step_id" (Json.num i), "Write", fp,
            "create", body⟩ : CodeChange)])
        else if fn = Json.str "Edit" then do
          let fp ← pyGetD args "file_path" (Json.str "unknown")
          let o ← pyGetD args "old_string" (Json.str "")
          let n ← pyGetD args "new_string" (Json.str "")
          pure (acc ++ [(⟨dictGetD kvs "step_id" (Json.num i), "Edit", fp,
            "modify", synth_edit o n⟩ : CodeChange)])
        else pure acc) [] = .ok l ∧ l.all goodChange = true := by
      apply foldlM_ok_inv _ wfToolCall (fun l => l.all goodChange = true)
        _ tcs [] rfl halltc
      intro b tc hb htcw
      obtain ⟨ckvs, rfl, hargs⟩ := wfToolCall_destruct tc htcw
      obtain ⟨akvs, hak, hfp, hbody⟩ := wfInput_destruct _ hargs
      by_cases hw : dictGetD ckvs "function_name" (Json.str "") = Json.str "Write"
      · refine ⟨b ++ [⟨dictGetD kvs "step_id" (Json.num i), "Write",
            dictGetD akvs "file_path" (Json.str "unknown"), "create",
            dictGetD akvs "content" (Json.str "")⟩], ?_, ?_⟩
        · simp [hw, hak]
        · simp [List.all_append, goodChange, hb, hfp, hbody]
      · by_cases he : dictGetD ckvs "function_name" (Json.str "") = Json.str "Edit"
        · refine ⟨b ++ [⟨dictGetD kvs "step_id" (Json.num i), "Edit",
              dictGetD akvs "file_path" (Json.str "unknown"), "modify",
              synth_edit (dictGetD akvs "old_string" (Json.str ""))
                (dictGetD akvs "new_string" (Json.str ""))⟩], ?_, ?_⟩
          · simp [hw, he, hak]
          · simp [List.all_append, goodChange, hb, hfp, synth_edit]
        · exact ⟨b, by simp [hw, he, hak], hb⟩
    obtain ⟨l, hl, hg⟩ := hfold
    simp only [exc_pure_eq_ok] at hl
    exact ⟨l, by simp [rule_trajectory, hr, hf, htcs, hl], hg⟩
  · exact ⟨[], by simp [rule_trajectory, hf], rfl⟩

theorem extract_changes_ok (fmt : String) (records : List Json)
    (h : ∀ r ∈ records, wfRecord r = true) :
    ∃ cs, extract_changes fmt records = .ok cs ∧ cs.all goodChange = true := by
  have henum : ∀ p ∈ records.enumFrom 1, wfRecord p.2 = true := by
    rw [List.forall_mem_enumFrom]
    intro j hj
    exact h _ (List.getElem_mem hj)
  apply foldlM_ok_inv _ (fun p => wfRecord p.2) (fun l => l.all goodChange = true)
    _ (records.enumFrom 1) [] rfl henum
  intro b p hb hp
  obtain ⟨a, ha, hga⟩ := rule_assistant_ok p.1 p.2 hp
  obtain ⟨bb, hbb, hgb⟩ := rule_tool_calls_ok p.1 p.2 hp
  obtain ⟨c, hc, hgc⟩ := rule_trajectory_ok fmt p.1 p.2 hp
  exact ⟨b ++ a ++ bb ++ c, by simp [ha, hbb, hc],
    by simp [List.all_append, hb, hga, hgb, hgc]⟩

theorem file_stats_ok (cs : List CodeChange)
    (h : ∀ c ∈ cs, goodChange c = true) :
    ∃ st, file_stats cs = .ok st := by
  apply foldlM_ok _ goodChange _ cs [] h
  intro b c hc
  simp only [goodChange, Bool.and_eq_true] at hc
  refine ⟨bump_stats b c.path c.tool, ?_⟩
  simp [hashable_of_isStr _ hc.1]

theorem render_detail_ok (c : CodeChange) (h : goodChange c = true) :
    ∃ d, render_detail c = .ok d := by
  simp only [goodChange, Bool.and_eq_true] at h
  obtain ⟨s, hs⟩ := isStr_exists _ h.2
  by_cases hl : s.length > 3000
  · exact ⟨⟨c, Json.str (s.take 3000), some s.length⟩,
      by simp [render_detail, hs, pyLenJ, hl]⟩
  · exact ⟨⟨c, c.content, none⟩, by simp [render_detail, hs, pyLenJ, hl]⟩

theorem render_details_ok (cs : List CodeChange)
    (h : ∀ c ∈ cs, goodChange c = true) :
    ∃ ds, render_details cs = .ok ds :=
  mapE_ok render_detail goodChange (fun c hc => render_detail_ok c hc) cs h

theorem persist_file_ok (idx : Nat) (c : CodeChange)
    (h : goodChange c = true) : ∃ f, persist_file idx c = .ok f := by
  simp only [goodChange, Bool.and_eq_true] at h
  obtain ⟨ps, hps⟩ := isStr_exists _ h.1
  obtain ⟨bs, hbs⟩ := isStr_exists _ h.2
  cases hres : persist_file idx c with
  | ok f => exact ⟨f, rfl⟩
  | error e =>
      exfalso
      revert hres
      by_cases he : c.tool = "Edit" <;>
        simp [persist_file, persist_name, safe_name, hps, hbs, he]

theorem extract_agent_code_ok (fmt : String) (records : List Json)
    (dir : Option String) (h : ∀ r ∈ records, wfRecord r = true) :
    ∃ out, extract_agent_code fmt records dir = .ok out := by
  obtain ⟨cs, hcs, hg⟩ := extract_changes_ok fmt records h
  have hgood : ∀ c ∈ cs, goodChange c = true := by
    rw [← List.all_eq_true]
    exact hg
  by_cases hemp : cs.isEmpty
  · have hnil : cs = [] := by simpa using hemp
    exact ⟨none, by simp [extract_agent_code, hcs, hnil]⟩
  · have hne : ¬cs = [] := by simpa using hemp
    obtain ⟨st, hst⟩ := file_stats_ok cs hgood
    obtain ⟨ds, hds⟩ := render_details_ok cs hgood
    cases dir with
    | none =>
        exact ⟨some ⟨cs, st, ds, []⟩,
          by simp [extract_agent_code, hcs, hne, hst, hds]⟩
    | some d =>
        have hgood2 : ∀ p ∈ cs.enumFrom 1, goodChange p.2 = true := by
          rw [List.forall_mem_enumFrom]
          intro j hj
          exact hgood _ (List.getElem_mem hj)
        obtain ⟨fs, hfs⟩ := mapE_ok (fun p => persist_file p.1 p.2)
          (fun p => goodChange p.2)
          (fun p hp => persist_file_ok p.1 p.2 hp) (cs.enumFrom 1) hgood2
        exact ⟨some ⟨cs, st, ds, fs⟩,
          by simp [extract_agent_code, hcs, hne, hst, hds, hfs]⟩

/-- C3 counterexample: a line holding the bare number 5 decodes
successfully, so the loader returns the non-dict record 5; the summary
then calls `r.get("type", ...)` on it and the program dies with an
uncaught AttributeError — not one of the three sanctioned failure
categories.  The same fetch pattern crashes the type filter, the deep
analysis and the code extraction on such a record. -/
theorem C3_counterexample :
    load_jsonl [LineP.ok (Json.num 5)] = ([Json.num 5], []) ∧
    show_summary [Json.num 5] = .error "AttributeError: .get on non-dict" := by
  exact ⟨by decide, rfl⟩

/-- C3 amended: provided every decoded record is a JSON object whose
dynamically-typed fields have the shapes the code blindly assumes
(`wfRecord`: hashable `type`, lenable `tools`, numeric `duration_ms` /
`total_cost_usd`, dict `usage`, well-shaped `message.content` and
`tool_calls`), no operation raises an internal exception: the summary,
type filter, deep analysis and code extraction all return normally
(soft conditions such as an empty filter result or an empty extraction
are values, not exceptions), and line display is total on ANY record
sequence, either printing the requested record or reporting the
out-of-range diagnostic that exits non-zero.  A decoded record not of
this shape (e.g. a bare number) escapes as an uncaught exception, so
the original claim is refuted by the counterexample. -/
theorem C3_no_uncaught_exception :
    ∀ records : List Json, (∀ r ∈ records, wfRecord r = true) →
      (∃ s, show_summary records = .ok s) ∧
      (∀ tf, ∃ rows, show_by_type records tf = .ok rows) ∧
      (∀ n : Int,
          show_line records n = .printed (records.getD (n - 1).toNat Json.null) ∨
          show_line records n = .outOfRange records.length) ∧
      (∃ rep, analyze_claude_code records = .ok rep) ∧
      (∀ (fmt : String) (dir : Option String),
          ∃ out, extract_agent_code fmt records dir = .ok out) := by
  intro records h
  refine ⟨show_summary_ok records h, fun tf => show_by_type_ok records tf h, ?_,
    analyze_claude_code_ok records h,
    fun fmt dir => extract_agent_code_ok fmt records dir h⟩
  intro n
  by_cases hc : 0 ≤ n - 1 ∧ n - 1 < (records.length : Int)
  · left
    simp only [show_line]
    rw [if_pos hc]
  · right
    simp only [show_line]
    rw [if_neg hc]

/-- Witness for C3 on a two-record well-formed log (an assistant Write
record and a result record). -/
theorem C3_witness :
    (∀ r ∈ [Json.obj [("type", Json.str "assistant"),
        ("message", Json.obj [("content", Json.arr [Json.obj
          [("type", Json.str "tool_use"), ("name", Json.str "Write"),
           ("input", Json.obj [("file_path", Json.str "a.py"),
                               ("content", Json.str "print(1)")])]])])],
      Json.obj [("type", Json.str "result"), ("num_turns", Json.num 3)]],
      wfRecord r = true) ∧
    (∃ s, show_summary [Json.obj [("type", Json.str "assistant"),
        ("message", Json.obj [("content", Json.arr [Json.obj
          [("type", Json.str "tool_use"), ("name", Json.str "Write"),
           ("input", Json.obj [("file_path", Json.str "a.py"),
                               ("content", Json.str "print(1)")])]])])],
      Json.obj [("type", Json.str "result"), ("num_turns", Json.num 3)]] = .ok s) ∧
    (∃ rep, analyze_claude_code [Json.obj [("type", Json.str "assistant"),
        ("message", Json.obj [("content", Json.arr [Json.obj
          [("type", Json.str "tool_use"), ("name", Json.str "Write"),
           ("input", Json.obj [("file_path", Json.str "a.py"),
                               ("content", Json.str "print(1)")])]])])],
      Json.obj [("type", Json.str "result"), ("num_turns", Json.num 3)]] = .ok rep) ∧
    (∃ out, extract_agent_code "trajectory" [Json.obj [("type", Json.str "assistant"),
        ("message", Json.obj [("content", Json.arr [Json.obj
          [("type", Json.str "tool_use"), ("name", Json.str "Write"),
           ("input", Json.obj [("file_path", Json.str "a.py"),
                               ("content", Json.str "print(1)")])]])])],
      Json.obj [("type", Json.str "result"), ("num_turns", Json.num 3)]] none = .ok out) := by
  have hwf : ∀ r ∈ [Json.obj [("type", Json.str "assistant"),
        ("message", Json.obj [("content", Json.arr [Json.obj
          [("type", Json.str "tool_use"), ("name", Json.str "Write"),
           ("input", Json.obj [("file_path", Json.str "a.py"),
                               ("content", Json.str "print(1)")])]])])],
      Json.obj [("type", Json.str "result"), ("num_turns", Json.num 3)]],
      wfRecord r = true := by decide
  have h := C3_no_uncaught_exception _ hwf
  exact ⟨hwf, h.1, h.2.2.2.1, h.2.2.2.2 "trajectory" none⟩
